import Mathlib

/-!
# PulseAudio control plane: volume scaling, RAOP stream cipher, RTSP handshake
callback and UPnP device registry

Shallow embedding of
* `src/modules/module-gupnp-sink.c` (`volume_to_percent`, `volume_from_percent`),
* `src/modules/rtp/raop_client.c` (`aes_encrypt`, `rtsp_cb`, `pa_raop_client_connect`),
* `src/modules/module-gupnp-discover.c` (`process_msg_from_glib`).

C `unsigned int` is a natural number reduced modulo `2^32` after every
arithmetic operation that can overflow; `uint8_t` buffers are lists of
natural numbers; pointers to foreign objects are natural numbers.
-/

namespace PulseAudio

/-! ## module-gupnp-sink.c : volume scaling -/

/-- Modulus of the C type `unsigned int` (32 bits). -/
def UINT_MODULUS : Nat := 4294967296

/-- Function `static unsigned int volume_to_percent(unsigned int v) { return (v * 100) / 65536; }` -/
def volume_to_percent (v : Nat) : Nat :=
  ((v * 100) % UINT_MODULUS) / 65536

/-- Function `static unsigned int volume_from_percent(unsigned int v) { return (v * 65536) / 100; }` -/
def volume_from_percent (v : Nat) : Nat :=
  ((v * 65536) % UINT_MODULUS) / 100


/-! ## modules/rtp/raop_client.c : stream cipher -/

/-- Constant `#define AES_CHUNKSIZE 16` -/
@[reducible] def AES_CHUNKSIZE : Nat := 16

/-- Constant `#define JACK_STATUS_DISCONNECTED 0` -/
def JACK_STATUS_DISCONNECTED : Nat := 0
/-- Constant `#define JACK_STATUS_CONNECTED 1` -/
def JACK_STATUS_CONNECTED : Nat := 1
/-- Constant `#define JACK_TYPE_ANALOG 0` -/
def JACK_TYPE_ANALOG : Nat := 0
/-- Constant `#define JACK_TYPE_DIGITAL 1` -/
def JACK_TYPE_DIGITAL : Nat := 1

/-- A `uint8_t[AES_CHUNKSIZE]` array: one byte for each index below 16. -/
abbrev Chunk : Type := Fin AES_CHUNKSIZE → Nat

/-- States handed to the session callback (`pa_rtsp_state`, named in the `switch` of
`rtsp_cb`). -/
inductive pa_rtsp_state where
  | STATE_CONNECT
  | STATE_ANNOUNCE
  | STATE_SETUP
  | STATE_RECORD
  | STATE_TEARDOWN
  | STATE_SET_PARAMETER
  | STATE_FLUSH
  deriving DecidableEq, Repr

/-- Protocol requests a session can issue on the wire. -/
inductive rtsp_request where
  | ANNOUNCE (sdp : List Char)
  | SETUP
  | RECORD
  deriving DecidableEq, Repr

/-- Modelled from the spec: `pa_headerlist` (headerlist.c is not among the sources) is
an insertion-ordered mapping from unique, case-sensitive keys to text values. -/
abbrev pa_headerlist : Type := List (List Char × List Char)

/-- Modelled from the spec: `pa_headerlist_gets` looks a key up and yields its value, or
`NULL` (here `none`) when the key is absent. -/
def pa_headerlist_gets (headers : pa_headerlist) (key : List Char) : Option (List Char) :=
  (headers.find? (fun kv => kv.1 = key)).map (fun kv => kv.2)

/-- Modelled from the spec: `pa_rtsp_context` (rtsp.c is not among the sources) owns the
session URL, the header mapping and the protocol state; `requests` records the requests
issued so far, oldest first.  A request is produced with the text headers of the session
as they stand when it is issued: `request_headers` records, for each entry of `requests`
in the same order, the header mapping that request went out with. -/
structure pa_rtsp_context where
  useragent : List Char
  localip : List Char
  url : Option (List Char)
  headers : pa_headerlist
  state : pa_rtsp_state
  requests : List rtsp_request
  request_headers : List pa_headerlist
  deriving DecidableEq, Repr

/-- Modelled from the spec: `pa_rtsp_context_new` creates a session with no URL, no header
and no request issued. -/
def pa_rtsp_context_new (useragent localip : List Char) : pa_rtsp_context :=
  { useragent := useragent, localip := localip, url := none, headers := [],
    state := pa_rtsp_state.STATE_CONNECT, requests := [], request_headers := [] }

/-- Modelled from the spec: `pa_rtsp_localip` is the negotiated local transport address. -/
def pa_rtsp_localip (r : pa_rtsp_context) : List Char := r.localip

/-- Modelled from the spec: `pa_rtsp_set_url` stores the session URL. -/
def pa_rtsp_set_url (r : pa_rtsp_context) (url : List Char) : pa_rtsp_context :=
  { r with url := some url }

/-- Modelled from the spec: `pa_rtsp_add_header` binds `key` to `value`; keys are unique,
so an earlier binding of the same key is replaced. -/
def pa_rtsp_add_header (r : pa_rtsp_context) (key value : List Char) : pa_rtsp_context :=
  { r with headers := r.headers.filter (fun kv => kv.1 ≠ key) ++ [(key, value)] }

/-- Modelled from the spec: `pa_rtsp_remove_header` drops the binding of `key`. -/
def pa_rtsp_remove_header (r : pa_rtsp_context) (key : List Char) : pa_rtsp_context :=
  { r with headers := r.headers.filter (fun kv => kv.1 ≠ key) }

/-- Modelled from the spec: `pa_rtsp_announce` issues the announce request carrying the
session description and the session's current headers, and moves the session to
`Announce`. -/
def pa_rtsp_announce (r : pa_rtsp_context) (sdp : List Char) : pa_rtsp_context :=
  { r with state := pa_rtsp_state.STATE_ANNOUNCE,
           requests := r.requests ++ [rtsp_request.ANNOUNCE sdp],
           request_headers := r.request_headers ++ [r.headers] }

/-- Modelled from the spec: `pa_rtsp_setup` issues the setup request with the session's
current headers and moves the session to `Setup`. -/
def pa_rtsp_setup (r : pa_rtsp_context) : pa_rtsp_context :=
  { r with state := pa_rtsp_state.STATE_SETUP,
           requests := r.requests ++ [rtsp_request.SETUP],
           request_headers := r.request_headers ++ [r.headers] }

/-- Modelled from the spec: `pa_rtsp_record` issues the record request with the session's
current headers and moves the session to `Record`. -/
def pa_rtsp_record (r : pa_rtsp_context) : pa_rtsp_context :=
  { r with state := pa_rtsp_state.STATE_RECORD,
           requests := r.requests ++ [rtsp_request.RECORD],
           request_headers := r.request_headers ++ [r.headers] }

/-- Record `struct pa_raop_client`, over the type `K` of expanded cipher keys (`AES_KEY`).  The
fields `sc`, `io`, `callback` and `userdata` are never touched by the functions below and
are left out. -/
structure pa_raop_client (K : Type) where
  rtsp : pa_rtsp_context
  host : List Char
  sid : List Char
  jack_type : Nat
  jack_status : Nat
  aes : K
  aes_iv : Chunk
  aes_nv : Chunk
  aes_key : Chunk

/-- Library routines the client calls: the block cipher and RSA of OpenSSL and the base64
codec of the server. Each is an arbitrary function of its inputs. -/
structure raop_library (K : Type) where
  AES_encrypt : K → Chunk → Chunk
  AES_set_encrypt_key : Chunk → K
  RSA_public_encrypt : List Nat → List Nat → List Nat → List Nat
  pa_base64_encode : List Nat → List Char
  pa_base64_decode : List Char → List Nat

/-- The 16 bytes found at `data + i` (a byte outside the buffer reads as 0; the callers
below only read inside it). -/
def read_chunk (data : List Nat) (i : Nat) : Chunk :=
  fun j => data.getD (i + j.val) 0

/-- Store 16 bytes at `data + i`. -/
def write_chunk (data : List Nat) (i : Nat) (buf : Chunk) : List Nat :=
  data.take i ++ List.ofFn buf ++ data.drop (i + AES_CHUNKSIZE)

/-- Loop `for (j=0; j<AES_CHUNKSIZE; ++j) buf[j] ^= c->aes_nv[j];` -/
def xor_chunk (buf nv : Chunk) : Chunk :=
  fun j => buf j ^^^ nv j

/-- The `while (i+AES_CHUNKSIZE <= size)` loop of `aes_encrypt`; `none` when `fuel`
iterations do not reach the exit. The loop state is the client, the buffer and `i`. -/
def aes_encrypt_loop {K : Type} (lib : raop_library K) (size : Int) :
    Nat → pa_raop_client K → List Nat → Nat → Option (pa_raop_client K × List Nat × Nat)
  | 0, _, _, _ => none
  | fuel + 1, c, data, i =>
    if (i : Int) + (AES_CHUNKSIZE : Int) ≤ size then
      let buf := xor_chunk (read_chunk data i) c.aes_nv
      let buf := lib.AES_encrypt c.aes buf
      let data := write_chunk data i buf
      let c := { c with aes_nv := buf }
      aes_encrypt_loop lib size fuel c data (i + AES_CHUNKSIZE)
    else
      some (c, data, i)

/-- Function `static int aes_encrypt(pa_raop_client* c, uint8_t *data, int size)`: the client and
buffer after the call, and the returned count. C `int` arithmetic is exact here as long
as `size + 16` does not exceed `INT_MAX`. -/
def aes_encrypt {K : Type} (lib : raop_library K) (c : pa_raop_client K) (data : List Nat)
    (size : Int) : Option (pa_raop_client K × List Nat × Int) :=
  let c := { c with aes_nv := c.aes_iv }
  (aes_encrypt_loop lib size (size.toNat / AES_CHUNKSIZE + 1) c data 0).map
    (fun r => (r.1, r.2.1, (r.2.2 : Int)))

/-! ## modules/rtp/raop_client.c : text helpers

A C string is the list of its characters up to, and without, the terminating NUL.  The
in-place routine `remove_char_from_string` works on the buffer itself, which carries the
terminator explicitly. -/

/-- The terminator of a C string. -/
def NUL : Char := Char.ofNat 0

/-- Libc `strlen`: the number of characters before the first NUL of a buffer. -/
def strlen (str : List Char) : Nat :=
  (str.takeWhile (fun ch => ch ≠ NUL)).length

/-- The text held by a buffer: its characters before the first NUL. -/
def c_string (str : List Char) : List Char :=
  str.takeWhile (fun ch => ch ≠ NUL)

/-- Libc `strcmp`: zero exactly when the two strings are equal, otherwise the sign of the first
difference. -/
def strcmp : List Char → List Char → Int
  | [], [] => 0
  | [], _ :: _ => -1
  | _ :: _, [] => 1
  | a :: as, b :: bs => if a = b then strcmp as bs else if a.toNat < b.toNat then -1 else 1

/-- Libc `strstr`: the offset of the first occurrence of `needle` in `hay`, or `NULL`. -/
def strstr : List Char → List Char → Option Nat
  | [], needle => if needle = [] then some 0 else none
  | h :: hay, needle =>
    if needle.isPrefixOf (h :: hay) then some 0 else (strstr hay needle).map (fun k => k + 1)

/-- Libc `strcspn`: the length of the longest initial part of `s` free of the characters of
`reject`. -/
def strcspn (s reject : List Char) : Nat :=
  (s.takeWhile (fun ch => !reject.contains ch)).length

/-- Modelled from the spec: `pa_split` (core-util.c is not among the sources) hands out,
one call at a time, the tokens of `c` separated by a character of `delimiter`, and `NULL`
once the text is used up. `state` is `NULL` before the first call and afterwards the rest
of the text still to be split. -/
def pa_split (c delimiter : List Char) (state : Option (List Char)) :
    Option (List Char × Option (List Char)) :=
  let current := state.getD c
  if current = [] then none
  else
    let l := strcspn current delimiter
    let rest := current.drop l
    let rest := if rest ≠ [] then rest.drop 1 else rest
    some (current.take l, some rest)

/-- The inner loop `for (j=i; j<len; j++) str[j] = str[j+1];` of
`remove_char_from_string`. -/
def remove_char_shift (str : List Char) (i len : Nat) : List Char :=
  (List.range' i (len - i)).foldl (fun s j => s.set j (s.getD (j + 1) NUL)) str

/-- The `while (i<len)` loop of `remove_char_from_string`; `none` when `fuel` iterations
do not reach the exit. -/
def remove_char_loop (rc : Char) : Nat → List Char → Nat → Nat → Nat → Option (List Char × Nat)
  | 0, _, _, _, _ => none
  | fuel + 1, str, i, len, num =>
    if i < len then
      if str.getD i NUL = rc then
        remove_char_loop rc fuel (remove_char_shift str i len) i (len - 1) (num + 1)
      else
        remove_char_loop rc fuel str (i + 1) len num
    else
      some (str, num)

/-- Function `static int remove_char_from_string(char *str, char rc)`: the buffer after the call and
the returned count. -/
def remove_char_from_string (str : List Char) (rc : Char) : Option (List Char × Nat) :=
  remove_char_loop rc (strlen str + 1) str 0 (strlen str) 0

/-- The `printf` conversion `%u`. -/
def format_u (n : Nat) : List Char := Nat.toDigits 10 n

/-- The `printf` conversion `%08x`. -/
def format_08x (n : Nat) : List Char :=
  let digits := Nat.toDigits 16 n
  List.replicate (8 - digits.length) '0' ++ digits

/-! ## modules/rtp/raop_client.c : session callback and connect -/

/-- The public modulus `n` written in `rsa_encrypt`. -/
def rsa_modulus_text : List Char :=
  ("59dE8qLieItsH1WgjrcFRKj6eUWqi+bGLOX1HL3U3GhC/j0Qg90u3sG/1CUtwC" ++
   "5vOYvfDmFI6oSFXi5ELabWJmT2dKHzBJKa3k9ok+8t9ucRqMd6DZHJ2YCCLlDR" ++
   "KSKv6kDqnw4UwPdpOMXziC/AMj3Z/lUVX1G7WSHCAWKf1zNS1eLvqr+boEjXuB" ++
   "OitnZ/bDzPHrTOZz0Dew0uowxf/+sG+NCK3eQJVxqcaJ/vEHKIVd2M+5qL71yJ" ++
   "Q+87X6oV3eaYvt3zWZYD6z5vYTcrtij2VZ9Zmni/UAaHqn9JdsBWLUEpVviYnh" ++
   "imNVvYFZeCXg/IdTQ+x4IRdiXNv5hEew==").toList

/-- The public exponent `e` written in `rsa_encrypt`. -/
def rsa_exponent_text : List Char := "AQAB".toList

/-- Function `static int rsa_encrypt(uint8_t *text, int len, uint8_t *res)`: the bytes stored in
`res`; the returned size is their number. -/
def rsa_encrypt {K : Type} (lib : raop_library K) (text : List Nat) : List Nat :=
  lib.RSA_public_encrypt (lib.pa_base64_decode rsa_modulus_text)
    (lib.pa_base64_decode rsa_exponent_text) text

/-- The body of the `while ((token = pa_split(aj, delimiters, &token_state)))` loop in
the `STATE_SETUP` case of `rtsp_cb`, for one token. -/
def setup_token {K : Type} (c : pa_raop_client K) (token : List Char) : pa_raop_client K :=
  match strstr token ("=".toList) with
  | some pc =>
    if strcmp (token.take pc) ("type".toList) = 0
        ∧ strcmp (token.drop (pc + 1)) ("digital".toList) = 0 then
      { c with jack_type := JACK_TYPE_DIGITAL }
    else c
  | none =>
    if strcmp token ("connected".toList) = 0 then
      { c with jack_status := JACK_STATUS_CONNECTED }
    else c

/-- The token loop of the `STATE_SETUP` case; `none` when `fuel` iterations do not use
the text up. -/
def setup_token_loop {K : Type} (aj : List Char) :
    Nat → Option (List Char) → pa_raop_client K → Option (pa_raop_client K)
  | 0, _, _ => none
  | fuel + 1, token_state, c =>
    match pa_split aj (";".toList) token_state with
    | some (token, token_state) => setup_token_loop aj fuel token_state (setup_token c token)
    | none => some c

/-- Function `static void rtsp_cb(pa_rtsp_context *rtsp, pa_rtsp_state state, pa_headerlist*
headers, void *userdata)`, as a function of the client it updates.  `challenge` is the 16
bytes the `STATE_CONNECT` case reads at `&rand_data` after `pa_random` filled it. -/
def rtsp_cb {K : Type} (lib : raop_library K) (challenge : List Nat)
    (state : pa_rtsp_state) (headers : pa_headerlist) (c : pa_raop_client K) :
    Option (pa_raop_client K) :=
  match state with
  | pa_rtsp_state.STATE_CONNECT =>
    let ip := pa_rtsp_localip c.rtsp
    let url := "rtsp://".toList ++ ip ++ "/".toList ++ c.sid
    let c := { c with rtsp := pa_rtsp_set_url c.rtsp url }
    let rsakey := rsa_encrypt lib (List.ofFn c.aes_key)
    (remove_char_from_string (lib.pa_base64_encode rsakey ++ [NUL]) '=').bind fun key =>
    (remove_char_from_string (lib.pa_base64_encode (List.ofFn c.aes_iv) ++ [NUL]) '=').bind
      fun iv =>
    (remove_char_from_string (lib.pa_base64_encode challenge ++ [NUL]) '=').bind fun sac =>
    let challenge_header := "Apple-Challenge".toList
    let c := { c with rtsp := pa_rtsp_add_header c.rtsp challenge_header (c_string sac.1) }
    let sdp :=
      "v=0\r\n".toList ++
      "o=iTunes ".toList ++ c.sid ++ " 0 IN IP4 ".toList ++ ip ++ "\r\n".toList ++
      "s=iTunes\r\n".toList ++
      "c=IN IP4 ".toList ++ c.host ++ "\r\n".toList ++
      "t=0 0\r\n".toList ++
      "m=audio 0 RTP/AVP 96\r\n".toList ++
      "a=rtpmap:96 AppleLossless\r\n".toList ++
      "a=fmtp:96 4096 0 16 40 10 14 2 255 0 0 44100\r\n".toList ++
      "a=rsaaeskey:".toList ++ c_string key.1 ++ "\r\n".toList ++
      "a=aesiv:".toList ++ c_string iv.1 ++ "\r\n".toList
    some { c with rtsp := pa_rtsp_announce c.rtsp sdp }
  | pa_rtsp_state.STATE_ANNOUNCE =>
    let c := { c with rtsp := pa_rtsp_remove_header c.rtsp ("Apple-Challenge".toList) }
    some { c with rtsp := pa_rtsp_setup c.rtsp }
  | pa_rtsp_state.STATE_SETUP =>
    match pa_headerlist_gets headers ("Audio-Jack-Status".toList) with
    | some aj =>
      let c := { c with jack_type := JACK_TYPE_ANALOG }
      let c := { c with jack_status := JACK_STATUS_DISCONNECTED }
      (setup_token_loop aj (aj.length + 1) none c).map fun c =>
        { c with rtsp := pa_rtsp_record c.rtsp }
    | none => some c
  | pa_rtsp_state.STATE_RECORD => some c
  | pa_rtsp_state.STATE_TEARDOWN => some c
  | pa_rtsp_state.STATE_SET_PARAMETER => some c
  | pa_rtsp_state.STATE_FLUSH => some c

/-- Modelled from the spec: `pa_rtsp_connect` (rtsp.c is not among the sources) opens the
transport to `host`; the session then knows its negotiated local address and is in
`Connect`. The result is the session and the status returned. -/
def pa_rtsp_connect (r : pa_rtsp_context) (localip : List Char) (status : Int) :
    pa_rtsp_context × Int :=
  ({ r with localip := localip, state := pa_rtsp_state.STATE_CONNECT }, status)

/-- Function `int pa_raop_client_connect(pa_raop_client* c, pa_mainloop_api *mainloop, const char*
host)`.  `iv`, `key` and `rand_a`, `rand_b`, `rand_c` are the bytes and words `pa_random`
delivers; `localip` and `status` are what the transport reports on connecting. -/
def pa_raop_client_connect {K : Type} (lib : raop_library K) (c : pa_raop_client K)
    (host : List Char) (iv key : Chunk) (rand_a rand_b rand_c : Nat)
    (localip : List Char) (status : Int) : pa_raop_client K × Int :=
  let c := { c with host := host }
  let useragent := "iTunes/4.6 (Macintosh; U; PPC Mac OS X 10.3)".toList
  let c := { c with rtsp := pa_rtsp_context_new useragent [] }
  let c := { c with aes_iv := iv }
  let c := { c with aes_key := key }
  let c := { c with aes_nv := c.aes_iv }
  let c := { c with aes := lib.AES_set_encrypt_key c.aes_key }
  let c := { c with sid := format_u rand_a }
  let sci := format_08x rand_b ++ format_08x rand_c
  let c := { c with rtsp := pa_rtsp_add_header c.rtsp ("Client-Instance".toList) sci }
  let r := pa_rtsp_connect c.rtsp localip status
  ({ c with rtsp := r.1 }, r.2)

/-! ## modules/module-gupnp-discover.c : device registry

A `GUPnPDeviceProxy *` is a natural number (the identity of the proxy object). -/

namespace gupnp_discover

/-- Constant `#define DEVICE_MODULE_NAME "module-gupnp-sink"` -/
def DEVICE_MODULE_NAME : List Char := "module-gupnp-sink".toList

/-- Enumerator `GUPNP_DISCOVER_CONTEXT_AVAILABLE = PA_SINK_MESSAGE_MAX`; the value of
`PA_SINK_MESSAGE_MAX` is declared outside the sources and taken as a parameter. -/
def GUPNP_DISCOVER_CONTEXT_AVAILABLE (PA_SINK_MESSAGE_MAX : Int) : Int :=
  PA_SINK_MESSAGE_MAX

/-- Enumerator `GUPNP_DISCOVER_CONTEXT_UNAVAILABLE`, the next enumerator. -/
def GUPNP_DISCOVER_CONTEXT_UNAVAILABLE (PA_SINK_MESSAGE_MAX : Int) : Int :=
  PA_SINK_MESSAGE_MAX + 1

/-- Record `struct pa_upnp_device`; the list links are the position in the owning list. -/
structure pa_upnp_device where
  proxy : Nat
  module_index : Nat
  deriving DecidableEq, Repr

/-- Record `struct userdata`: the head of the device list.  `core`, `module`, `loop`, `thread`
and `thread_mq` are not changed by the message handler and are left out. -/
structure userdata where
  devices : List pa_upnp_device
  deriving DecidableEq, Repr

/-- Record `struct pa_gupnp_discover_msg`. -/
structure pa_gupnp_discover_msg where
  userdata : userdata
  proxy : Nat
  deriving DecidableEq, Repr

/-- What the handler does to the world outside `struct userdata`, in program order. -/
inductive effect where
  | pa_module_load (name args : List Char)
  | pa_module_unload_request_by_index (module_index : Nat) (force : Bool)
  | PA_LLIST_REMOVE (dev : pa_upnp_device)
  | g_object_unref (proxy : Nat)
  | pa_xfree (dev : pa_upnp_device)
  deriving DecidableEq, Repr

/-- The `PA_LLIST_FOREACH_SAFE(dev, tmp, u->devices)` loop of the
`GUPNP_DISCOVER_CONTEXT_UNAVAILABLE` case: the list left behind and the effects issued. -/
def unavailable_loop (proxy : Nat) : List pa_upnp_device → List pa_upnp_device × List effect
  | [] => ([], [])
  | dev :: tmp =>
    let r := unavailable_loop proxy tmp
    if dev.proxy = proxy then
      (r.1, [effect.pa_module_unload_request_by_index dev.module_index true,
             effect.PA_LLIST_REMOVE dev,
             effect.g_object_unref proxy,
             effect.pa_xfree dev] ++ r.2)
    else
      (dev :: r.1, r.2)

/-- Function `static int process_msg_from_glib(pa_msgobject *o, int code, void *data, int64_t
offset, pa_memchunk *chunk)`: the returned value, the message object with its `userdata`
after the call, and the effects issued; `none` when `pa_assert_not_reached()` aborts.
`udn` stands for `gupnp_device_info_get_udn` and `module_load` for the outcome of
`pa_module_load` (the index of the loaded module, or `NULL`). -/
def process_msg_from_glib (PA_SINK_MESSAGE_MAX : Int) (udn : Nat → List Char)
    (module_load : List Char → List Char → Option Nat)
    (o : pa_gupnp_discover_msg) (code : Int) :
    Option (Int × pa_gupnp_discover_msg × List effect) :=
  let proxy := o.proxy
  let u := o.userdata
  if code = GUPNP_DISCOVER_CONTEXT_AVAILABLE PA_SINK_MESSAGE_MAX then
    let args := "udn=".toList ++ udn proxy
    match module_load DEVICE_MODULE_NAME args with
    | some index =>
      let dev : pa_upnp_device := { proxy := proxy, module_index := index }
      let u := { u with devices := dev :: u.devices }
      some (0, { o with userdata := u }, [effect.pa_module_load DEVICE_MODULE_NAME args])
    | none =>
      some (0, { o with userdata := u }, [effect.pa_module_load DEVICE_MODULE_NAME args])
  else if code = GUPNP_DISCOVER_CONTEXT_UNAVAILABLE PA_SINK_MESSAGE_MAX then
    let r := unavailable_loop proxy u.devices
    let u := { u with devices := r.1 }
    some (0, { o with userdata := u }, r.2)
  else
    none

/-- Callback `device_proxy_available_cb`: stores the proxy in the message object and sends
`GUPNP_DISCOVER_CONTEXT_AVAILABLE`; the send waits for the handler and yields its return
value, which `pa_assert_se` requires to be 0. -/
def device_proxy_available_cb (PA_SINK_MESSAGE_MAX : Int) (udn : Nat → List Char)
    (module_load : List Char → List Char → Option Nat)
    (o : pa_gupnp_discover_msg) (proxy : Nat) :
    Option (pa_gupnp_discover_msg × List effect) :=
  let o := { o with proxy := proxy }
  (process_msg_from_glib PA_SINK_MESSAGE_MAX udn module_load o
      (GUPNP_DISCOVER_CONTEXT_AVAILABLE PA_SINK_MESSAGE_MAX)).bind fun r =>
    if r.1 = 0 then some r.2 else none

/-- Callback `device_proxy_unavailable_cb`: stores the proxy in the message object and sends
`GUPNP_DISCOVER_CONTEXT_UNAVAILABLE`. -/
def device_proxy_unavailable_cb (PA_SINK_MESSAGE_MAX : Int) (udn : Nat → List Char)
    (module_load : List Char → List Char → Option Nat)
    (o : pa_gupnp_discover_msg) (proxy : Nat) :
    Option (pa_gupnp_discover_msg × List effect) :=
  let o := { o with proxy := proxy }
  (process_msg_from_glib PA_SINK_MESSAGE_MAX udn module_load o
      (GUPNP_DISCOVER_CONTEXT_UNAVAILABLE PA_SINK_MESSAGE_MAX)).bind fun r =>
    if r.1 = 0 then some r.2 else none

end gupnp_discover

/-! ## Vocabulary for the cipher claims -/

/-- Limit `INT_MAX` for the 32-bit C type `int`. -/
def INT_MAX : Int := 2147483647

/-- The ciphertext blocks one `aes_encrypt` call produced: the 16-byte blocks of the
buffer after the call that lie below the returned count, first to last. -/
def produced_chunks (out : List Nat) (ret : Int) : List Chunk :=
  (List.range (ret.toNat / AES_CHUNKSIZE)).map fun k => read_chunk out (AES_CHUNKSIZE * k)

/-- Several `aes_encrypt` calls in a row on one client, each with its own buffer and
size: the client after the last call and all ciphertext blocks produced, oldest first. -/
def aes_encrypt_calls {K : Type} (lib : raop_library K) :
    pa_raop_client K → List (List Nat × Int) → Option (pa_raop_client K × List Chunk)
  | c, [] => some (c, [])
  | c, call :: calls =>
    (aes_encrypt lib c call.1 call.2).bind fun r =>
      (aes_encrypt_calls lib r.1 calls).map fun r' =>
        (r'.1, produced_chunks r.2.1 r.2.2 ++ r'.2)

/-- A stand-in library for concrete runs: the block transform adds one to every byte. -/
def example_library : raop_library Unit where
  AES_encrypt := fun _ buf j => (buf j + 1) % 256
  AES_set_encrypt_key := fun _ => ()
  RSA_public_encrypt := fun _ _ text => text
  pa_base64_encode := fun bytes => bytes.map fun b => Char.ofNat (65 + b % 26)
  pa_base64_decode := fun text => text.map fun ch => ch.toNat

/-- A zero-filled session, as `pa_rtsp_context_new` would leave it with empty texts. -/
def example_rtsp : pa_rtsp_context := pa_rtsp_context_new [] []

/-- A zero-filled client, as `pa_raop_client_new` (`pa_xnew0`) returns it. -/
def example_client : pa_raop_client Unit where
  rtsp := example_rtsp
  host := []
  sid := []
  jack_type := 0
  jack_status := 0
  aes := ()
  aes_iv := fun _ => 0
  aes_nv := fun _ => 0
  aes_key := fun _ => 0

/-- The example client after `pa_raop_client_connect` with an initialisation vector of
sixteen bytes 7 and a key of sixteen bytes 9. -/
def example_connected : pa_raop_client Unit :=
  (pa_raop_client_connect example_library example_client ['h'] (fun _ => 7) (fun _ => 9)
    1 2 3 ['i', 'p'] 0).1

/-! ## Vocabulary for the registry claims -/

namespace gupnp_discover

/-- Whether an effect is a module-unload request. -/
def is_unload_request : effect → Bool
  | effect.pa_module_unload_request_by_index _ _ => true
  | _ => false

/-- The effects the `GUPNP_DISCOVER_CONTEXT_UNAVAILABLE` case issues for one matching
entry, in the order of the statements in the loop body. -/
def removal_effects (proxy : Nat) (dev : pa_upnp_device) : List effect :=
  [effect.pa_module_unload_request_by_index dev.module_index true,
   effect.PA_LLIST_REMOVE dev,
   effect.g_object_unref proxy,
   effect.pa_xfree dev]

end gupnp_discover

/-! ## pulsecore/glib-utils.c : scheduler adapter

A `pa_msgobject *` is a natural number (the identity of the handler object), `NULL` is
`none`; the payload pointer and the memory chunk of a message are natural numbers. -/

namespace glib_utils

/-- Modelled from the spec: a queued message (asyncmsgq.c is not among the sources): the
target handler, the opcode, the payload, the byte offset and the data block. -/
structure pa_message where
  object : Option Nat
  code : Int
  data : Nat
  offset : Int
  chunk : Nat
  deriving DecidableEq, Repr

/-- Modelled from the spec: one side of an `AsyncMessageQueue`, a strictly ordered queue
of the messages sent and not yet received, oldest first. -/
structure pa_asyncmsgq where
  pending : List pa_message
  deriving DecidableEq, Repr

/-- Modelled from the spec: `pa_asyncmsgq_get` without waiting hands out the oldest
pending message and returns 0, or returns -1 (here `none`) when nothing is pending. -/
def pa_asyncmsgq_get (q : pa_asyncmsgq) : Option (pa_message × pa_asyncmsgq) :=
  match q.pending with
  | [] => none
  | m :: rest => some (m, { pending := rest })

/-- Calls the adapter makes on the queue, the handlers and the foreign loop, in program
order. `pa_asyncmsgq_get` stands for a call that obtained the message given. -/
inductive mq_event where
  | pa_asyncmsgq_get (m : pa_message)
  | pa_asyncmsgq_done (ret : Int)
  | pa_asyncmsgq_dispatch (m : pa_message)
  | g_main_loop_quit
  | pa_asyncmsgq_read_before_poll
  | pa_asyncmsgq_read_after_poll
  deriving DecidableEq, Repr

/-- The condition bit `G_IO_IN` of GLib. -/
def G_IO_IN : Nat := 1

/-- Record `struct thread_mq_source`. `quit_requested` is the state of the `GMainLoop`
that `mainloop` points to: whether `g_main_loop_quit` was called on it. -/
structure thread_mq_source where
  q : pa_asyncmsgq
  poll_revents : Nat
  quit_requested : Bool
  object : Option Nat
  chunk : Nat
  offset : Int
  data : Nat
  code : Int
  deriving DecidableEq, Repr

/-- Function `static gboolean thread_mq_in_source_prepare(GSource *source, gint
*timeout)`: the source after the call, the value left in `*timeout`, the value returned
and the calls made. `PA_MESSAGE_SHUTDOWN` is declared outside the sources and taken as a
parameter. -/
def thread_mq_in_source_prepare (PA_MESSAGE_SHUTDOWN : Int) (s : thread_mq_source)
    (timeout : Int) : thread_mq_source × Int × Bool × List mq_event :=
  match pa_asyncmsgq_get s.q with
  | some (m, q) =>
    let s := { s with q := q, object := m.object, code := m.code, data := m.data,
                      offset := m.offset, chunk := m.chunk }
    if s.object = none ∧ s.code = PA_MESSAGE_SHUTDOWN then
      ({ s with quit_requested := true }, timeout, true,
        [mq_event.pa_asyncmsgq_get m, mq_event.pa_asyncmsgq_done 0, mq_event.g_main_loop_quit])
    else
      (s, timeout, true, [mq_event.pa_asyncmsgq_get m])
  | none =>
    (s, -1, false, [mq_event.pa_asyncmsgq_read_before_poll])

/-- Function `static gboolean thread_mq_in_source_check(GSource *source)`. -/
def thread_mq_in_source_check (s : thread_mq_source) :
    thread_mq_source × Bool × List mq_event :=
  (s, (s.poll_revents &&& G_IO_IN) ≠ 0, [mq_event.pa_asyncmsgq_read_after_poll])

/-- Function `static gboolean thread_mq_in_source_dispatch(GSource *source, GSourceFunc
callback, gpointer user_data)`. `process_msg` stands for the handler that
`pa_asyncmsgq_dispatch` invokes: the value it returns for a message. -/
def thread_mq_in_source_dispatch (process_msg : pa_message → Int) (s : thread_mq_source) :
    thread_mq_source × Bool × List mq_event :=
  match s.object with
  | some object =>
    let m : pa_message := { object := some object, code := s.code, data := s.data,
                            offset := s.offset, chunk := s.chunk }
    let ret := process_msg m
    ({ s with object := none }, true,
      [mq_event.pa_asyncmsgq_dispatch m, mq_event.pa_asyncmsgq_done ret])
  | none => (s, true, [])

/-- Function `GSource *pa_gsource_for_thread_mq(pa_thread_mq *mq, GMainLoop *mainloop)`:
`g_source_new` hands out zero-filled memory, then the queue is stored. -/
def pa_gsource_for_thread_mq (inq : pa_asyncmsgq) : thread_mq_source :=
  { q := inq, poll_revents := 0, quit_requested := false, object := none, chunk := 0,
    offset := 0, data := 0, code := 0 }

/-- What the outside world contributes to one iteration of the foreign loop: the
messages producers send before the source is prepared, those they send while the loop
polls, and the conditions the poll reports for the queue's descriptor. -/
structure iteration_input where
  sent_before_prepare : List pa_message
  sent_while_polling : List pa_message
  revents : Nat
  deriving DecidableEq, Repr

/-- One iteration of the foreign loop over the source, by the loop's contract for
sources: prepare; when prepare reports ready, dispatch; otherwise poll, check, and
dispatch when check reports ready. -/
def main_context_iteration (PA_MESSAGE_SHUTDOWN : Int) (process_msg : pa_message → Int)
    (s : thread_mq_source) (input : iteration_input) : thread_mq_source × List mq_event :=
  let s := { s with q := { pending := s.q.pending ++ input.sent_before_prepare } }
  let p := thread_mq_in_source_prepare PA_MESSAGE_SHUTDOWN s 0
  if p.2.2.1 then
    let d := thread_mq_in_source_dispatch process_msg p.1
    (d.1, p.2.2.2 ++ d.2.2)
  else
    let s := { p.1 with q := { pending := p.1.q.pending ++ input.sent_while_polling },
                        poll_revents := input.revents }
    let c := thread_mq_in_source_check s
    if c.2.1 then
      let d := thread_mq_in_source_dispatch process_msg c.1
      (d.1, p.2.2.2 ++ c.2.2 ++ d.2.2)
    else
      (c.1, p.2.2.2 ++ c.2.2)

/-- The run of the foreign loop (`g_main_loop_run`): iterations until quit is requested
or the inputs given are used up. -/
def main_loop_run (PA_MESSAGE_SHUTDOWN : Int) (process_msg : pa_message → Int) :
    thread_mq_source → List iteration_input → thread_mq_source × List mq_event
  | s, [] => (s, [])
  | s, input :: inputs =>
    if s.quit_requested then (s, [])
    else
      let r := main_context_iteration PA_MESSAGE_SHUTDOWN process_msg s input
      let r' := main_loop_run PA_MESSAGE_SHUTDOWN process_msg r.1 inputs
      (r'.1, r.2 ++ r'.2)

/-- Request/response pairing of a sequence of calls, given whether a message is
outstanding (obtained and not yet acknowledged) at its start: `none` when a message is
requested while one is outstanding or an acknowledgement is given while none is;
otherwise whether a message is outstanding at the end. -/
def pairing : Bool → List mq_event → Option Bool
  | outstanding, [] => some outstanding
  | outstanding, mq_event.pa_asyncmsgq_get _ :: events =>
    if outstanding then none else pairing true events
  | outstanding, mq_event.pa_asyncmsgq_done _ :: events =>
    if outstanding then pairing false events else none
  | outstanding, _ :: events => pairing outstanding events

/-- A message that either has a handler or is the shutdown sentinel. -/
def well_formed (PA_MESSAGE_SHUTDOWN : Int) (m : pa_message) : Prop :=
  m.object ≠ none ∨ m.code = PA_MESSAGE_SHUTDOWN

/-- Whether an event is a handler invocation. -/
def is_handler_call : mq_event → Bool
  | mq_event.pa_asyncmsgq_dispatch _ => true
  | _ => false

/-- Two iterations of the foreign loop, nothing sent meanwhile, over a queue that holds a
message without handler whose code (7) is not the sentinel code (-1), followed by a
message for handler 1. -/
def example_unacknowledged_run : thread_mq_source × List mq_event :=
  main_loop_run (-1) (fun _ => 0)
    (pa_gsource_for_thread_mq
      { pending := [{ object := none, code := 7, data := 0, offset := 0, chunk := 0 },
                    { object := some 1, code := 7, data := 0, offset := 0, chunk := 0 }] })
    [{ sent_before_prepare := [], sent_while_polling := [], revents := 0 },
     { sent_before_prepare := [], sent_while_polling := [], revents := 0 }]

end glib_utils

/-! ## polyp/authkey-prop.c : named-property store for the shared secret -/

namespace authkey_prop

/-- Record `struct authkey_data`, together with the `length` bytes stored right behind
it (`a+1`). -/
structure authkey_data where
  ref : Int
  length : Nat
  bytes : List Nat
  deriving DecidableEq, Repr

/-- Modelled from the spec: the property table of `struct pa_core` (props.c is not among
the sources), a mapping from names to stored objects. -/
abbrev pa_core : Type := List (List Char × authkey_data)

/-- Modelled from the spec: `pa_property_get` yields the object stored under `name`, or
`NULL` (here `none`). -/
def pa_property_get (c : pa_core) (name : List Char) : Option authkey_data :=
  (c.find? (fun kv => kv.1 = name)).map (fun kv => kv.2)

/-- Modelled from the spec: `pa_property_set` stores an object under a name not yet in
use (and changes nothing when the name is in use). -/
def pa_property_set (c : pa_core) (name : List Char) (a : authkey_data) : pa_core :=
  match pa_property_get c name with
  | some _ => c
  | none => c ++ [(name, a)]

/-- Modelled from the spec: `pa_property_remove` drops the object stored under `name`. -/
def pa_property_remove (c : pa_core) (name : List Char) : pa_core :=
  c.filter (fun kv => kv.1 ≠ name)

/-- A store through the pointer `a` that `pa_property_get` returned for `name`: the
object stored under `name` becomes `a`. -/
def store_through (c : pa_core) (name : List Char) (a : authkey_data) : pa_core :=
  c.map (fun kv => if kv.1 = name then (kv.1, a) else kv)

/-- Function `int pa_authkey_prop_get(struct pa_core *c, const char *name, void *data,
size_t len)`: the value returned and the caller's buffer after the call; `none` when an
`assert` fails. -/
def pa_authkey_prop_get (c : pa_core) (name : List Char) (data : List Nat) (len : Nat) :
    Option (Int × List Nat) :=
  if ¬ (len > 0) then none
  else
    match pa_property_get c name with
    | none => some (-1, data)
    | some a =>
      if ¬ (a.length = len) then none
      else some (0, a.bytes.take len ++ data.drop len)

/-- Function `int pa_authkey_prop_put(struct pa_core *c, const char *name, const void
*data, size_t len)`: the value returned and the store after the call. -/
def pa_authkey_prop_put (c : pa_core) (name : List Char) (data : List Nat) (len : Nat) :
    Int × pa_core :=
  match pa_property_get c name with
  | some _ => (-1, c)
  | none =>
    let a : authkey_data := { ref := 1, length := len, bytes := data.take len }
    (0, pa_property_set c name a)

/-- Function `void pa_authkey_prop_ref(struct pa_core *c, const char *name)`: the store
after the call; `none` when the `assert` fails or `a->ref++` would overflow `int`. -/
def pa_authkey_prop_ref (c : pa_core) (name : List Char) : Option pa_core :=
  match pa_property_get c name with
  | none => none
  | some a =>
    if ¬ (a.ref ≥ 1) then none
    else if a.ref + 1 > INT_MAX then none
    else some (store_through c name { a with ref := a.ref + 1 })

/-- Function `void pa_authkey_prop_unref(struct pa_core *c, const char *name)`: the store
after the call; `none` when the `assert` fails. -/
def pa_authkey_prop_unref (c : pa_core) (name : List Char) : Option pa_core :=
  match pa_property_get c name with
  | none => none
  | some a =>
    if ¬ (a.ref ≥ 1) then none
    else
      let a := { a with ref := a.ref - 1 }
      let c := store_through c name a
      if a.ref = 0 then some (pa_property_remove c name)
      else some c

/-- The calls that change the store. -/
inductive store_call where
  | put (name : List Char) (data : List Nat) (len : Nat)
  | ref (name : List Char)
  | unref (name : List Char)
  deriving DecidableEq, Repr

/-- One call on the store; `none` when the call aborts. -/
def apply_call (c : pa_core) : store_call → Option pa_core
  | store_call.put name data len => some (pa_authkey_prop_put c name data len).2
  | store_call.ref name => pa_authkey_prop_ref c name
  | store_call.unref name => pa_authkey_prop_unref c name

/-- A sequence of calls on the store, first to last. -/
def apply_calls : pa_core → List store_call → Option pa_core
  | c, [] => some c
  | c, call :: calls => (apply_call c call).bind fun c' => apply_calls c' calls

end authkey_prop

/-! ## modules/module-gupnp-sink.c : control endpoint -/

namespace gupnp_sink

/-- Enumerator `GUPNP_SINK_SET_VOLUME`, the first of the messages to the GLib context. -/
def GUPNP_SINK_SET_VOLUME : Int := 0
/-- Enumerator `GUPNP_SINK_GET_VOLUME`. -/
def GUPNP_SINK_GET_VOLUME : Int := 1
/-- Enumerator `GUPNP_SINK_SET_MUTED`. -/
def GUPNP_SINK_SET_MUTED : Int := 2
/-- Enumerator `GUPNP_SINK_GET_MUTED`. -/
def GUPNP_SINK_GET_MUTED : Int := 3

/-- The type `pa_cvolume`, declared outside the sources: a channel count and one volume
for each channel. -/
structure pa_cvolume where
  channels : Nat
  values : List Nat
  deriving DecidableEq, Repr

/-- The fields of `pa_sink` (declared outside the sources) that the callbacks touch. -/
structure pa_sink where
  state : Nat
  real_volume : pa_cvolume
  muted : Bool
  deriving DecidableEq, Repr

/-- What a message's `data` pointer points to: a `pa_cvolume` or an `unsigned int`. -/
inductive payload where
  | cvolume (v : pa_cvolume)
  | uint (n : Nat)
  deriving DecidableEq, Repr

/-- Routines and declarations from outside the sources that the sink uses: the
`PA_SINK_IS_LINKED` test on a sink state, `pa_cvolume_avg`, `pa_cvolume_set`, and the
outcome of `gupnp_service_proxy_send_action` for an action name, its input arguments and
the names of its output arguments (the value stored in the output argument, or `none`
when the call stores nothing). -/
structure sink_library where
  PA_SINK_IS_LINKED : Nat → Bool
  pa_cvolume_avg : pa_cvolume → Nat
  pa_cvolume_set : pa_cvolume → Nat → Nat → pa_cvolume
  gupnp_service_proxy_send_action :
    List Char → List (List Char × Nat) → List (List Char) → Option Nat

/-- What the sink does outside its own state, in program order: messages sent on the
queue to the GLib context and remote actions invoked. -/
inductive sink_effect where
  | pa_asyncmsgq_send (code : Int) (data : payload)
  | gupnp_service_proxy_send_action (action : List Char) (inputs : List (List Char × Nat))
      (outputs : List (List Char))
  deriving DecidableEq, Repr

/-- Function `static int process_msg_to_glib(pa_msgobject *o, int code, void *data,
int64_t offset, pa_memchunk *chunk)`: the value returned, what `data` points to after the
call, and the effects; `none` when `pa_assert_not_reached()` aborts or `data` does not
point to what the code expects. `uninit` is the value the uninitialised local `v` holds. -/
def process_msg_to_glib (lib : sink_library) (uninit : Nat) (code : Int) (data : payload) :
    Option (Int × payload × List sink_effect) :=
  if code = GUPNP_SINK_SET_VOLUME then
    match data with
    | payload.cvolume cvol =>
      let v := lib.pa_cvolume_avg cvol
      let v := volume_to_percent v
      let inputs := [("DesiredVolume".toList, v)]
      some (0, data,
        [sink_effect.gupnp_service_proxy_send_action ("SetVolume".toList) inputs []])
    | _ => none
  else if code = GUPNP_SINK_GET_VOLUME then
    match data with
    | payload.cvolume cvol =>
      let outputs := ["CurrentVolume".toList]
      let v := (lib.gupnp_service_proxy_send_action ("GetVolume".toList) [] outputs).getD uninit
      some (0, payload.cvolume (lib.pa_cvolume_set cvol 2 (volume_from_percent v)),
        [sink_effect.gupnp_service_proxy_send_action ("GetVolume".toList) [] outputs])
    | _ => none
  else if code = GUPNP_SINK_SET_MUTED then
    match data with
    | payload.uint muted =>
      let inputs := [("DesiredMute".toList, muted)]
      some (0, data,
        [sink_effect.gupnp_service_proxy_send_action ("SetMute".toList) inputs []])
    | _ => none
  else if code = GUPNP_SINK_GET_MUTED then
    match data with
    | payload.uint muted =>
      let outputs := ["CurrentMute".toList]
      let muted :=
        (lib.gupnp_service_proxy_send_action ("SetMute".toList) [] outputs).getD muted
      some (0, payload.uint muted,
        [sink_effect.gupnp_service_proxy_send_action ("SetMute".toList) [] outputs])
    | _ => none
  else
    none

/-- The call `pa_assert_se(pa_asyncmsgq_send(u->manage_thread_mq.inq,
PA_MSGOBJECT(u->msg_to_glib), code, data, 0, NULL) == 0)`: the send waits until the GLib
context has run the handler of `msg_to_glib`, which is `process_msg_to_glib`, and yields
the handler's return value. -/
def send_to_glib (lib : sink_library) (uninit : Nat) (code : Int) (data : payload) :
    Option (payload × List sink_effect) :=
  (process_msg_to_glib lib uninit code data).bind fun r =>
    if r.1 = 0 then some (r.2.1, sink_effect.pa_asyncmsgq_send code data :: r.2.2) else none

/-- The accessor `pa_sink_get_state`. -/
def pa_sink_get_state (s : pa_sink) : Nat := s.state

/-- Function `static void sink_set_volume_cb(pa_sink *s)`. -/
def sink_set_volume_cb (lib : sink_library) (uninit : Nat) (s : pa_sink) :
    Option (pa_sink × List sink_effect) :=
  if ¬ (lib.PA_SINK_IS_LINKED (pa_sink_get_state s) = true) then some (s, [])
  else
    (send_to_glib lib uninit GUPNP_SINK_SET_VOLUME (payload.cvolume s.real_volume)).bind
      fun r =>
        match r.1 with
        | payload.cvolume v => some ({ s with real_volume := v }, r.2)
        | _ => none

/-- Function `static void sink_get_volume_cb(pa_sink *s)`. -/
def sink_get_volume_cb (lib : sink_library) (uninit : Nat) (s : pa_sink) :
    Option (pa_sink × List sink_effect) :=
  if ¬ (lib.PA_SINK_IS_LINKED (pa_sink_get_state s) = true) then some (s, [])
  else
    (send_to_glib lib uninit GUPNP_SINK_GET_VOLUME (payload.cvolume s.real_volume)).bind
      fun r =>
        match r.1 with
        | payload.cvolume v => some ({ s with real_volume := v }, r.2)
        | _ => none

/-- Function `static void sink_set_mute_cb(pa_sink *s)`. -/
def sink_set_mute_cb (lib : sink_library) (uninit : Nat) (s : pa_sink) :
    Option (pa_sink × List sink_effect) :=
  if ¬ (lib.PA_SINK_IS_LINKED (pa_sink_get_state s) = true) then some (s, [])
  else
    let muted : Nat := if s.muted then 1 else 0
    (send_to_glib lib uninit GUPNP_SINK_SET_MUTED (payload.uint muted)).bind
      fun r => some (s, r.2)

/-- Function `static void sink_get_mute_cb(pa_sink *s)`; `uninit` is the value the
uninitialised local `muted` holds. -/
def sink_get_mute_cb (lib : sink_library) (uninit : Nat) (s : pa_sink) :
    Option (pa_sink × List sink_effect) :=
  if ¬ (lib.PA_SINK_IS_LINKED (pa_sink_get_state s) = true) then some (s, [])
  else
    (send_to_glib lib uninit GUPNP_SINK_GET_MUTED (payload.uint uninit)).bind
      fun r =>
        match r.1 with
        | payload.uint muted => some ({ s with muted := decide (muted ≠ 0) }, r.2)
        | _ => none

/-- A stand-in library for concrete runs: states 1, 2 and 3 count as linked, and the
remote device answers every query with 50. -/
def example_sink_library : sink_library where
  PA_SINK_IS_LINKED := fun state => state == 1 || state == 2 || state == 3
  pa_cvolume_avg := fun v => if v.values = [] then 0 else v.values.sum / v.values.length
  pa_cvolume_set := fun _ channels v => { channels := channels, values := List.replicate channels v }
  gupnp_service_proxy_send_action := fun _ _ outputs => if outputs = [] then none else some 50

end gupnp_sink

/-! ## modules/module-gupnp-sink.c : notifications from the device -/

namespace gupnp_sink

/-- Enumerator `GUPNP_SINK_CONTEXT_AVAILABLE = PA_SINK_MESSAGE_MAX`, the first of the
messages from the GLib context; the value of `PA_SINK_MESSAGE_MAX` is declared outside
the sources and taken as a parameter. -/
def GUPNP_SINK_CONTEXT_AVAILABLE (PA_SINK_MESSAGE_MAX : Int) : Int := PA_SINK_MESSAGE_MAX
/-- Enumerator `GUPNP_SINK_VOLUME_CHANGED`. -/
def GUPNP_SINK_VOLUME_CHANGED (PA_SINK_MESSAGE_MAX : Int) : Int := PA_SINK_MESSAGE_MAX + 1
/-- Enumerator `GUPNP_SINK_MUTE_CHANGED`. -/
def GUPNP_SINK_MUTE_CHANGED (PA_SINK_MESSAGE_MAX : Int) : Int := PA_SINK_MESSAGE_MAX + 2

/-- The constant `G_MAXUINT` of GLib, the largest `guint`. -/
def G_MAXUINT : Nat := 4294967295

/-- What `gupnp_last_change_parser_parse_last_change` reports for one LastChange event:
whether parsing succeeded, the `guint` it stored in `volume` when the event carries
`Volume`, and the `gboolean` it stored in `muted` when the event carries `Mute`. -/
structure last_change where
  success : Bool
  volume : Option Nat
  muted : Option Int
  deriving DecidableEq, Repr

/-- A message on the queue from the GLib context: the opcode and what `data` points to. -/
structure outq_message where
  code : Int
  data : payload
  deriving DecidableEq, Repr

/-- Modelled from the spec: the `out` side of the message queue (asyncmsgq.c is not among
the sources): the messages sent and not yet received, oldest first, and whether the queue
has been disposed. -/
structure outq where
  disposed : Bool
  pending : List outq_message
  deriving DecidableEq, Repr

/-- Modelled from the spec: `pa_asyncmsgq_send` enqueues the message and returns 0; it
fails (here with -1) only if the queue has been disposed. -/
def pa_asyncmsgq_send (q : outq) (m : outq_message) : outq × Int :=
  if q.disposed then (q, -1) else ({ q with pending := q.pending ++ [m] }, 0)

/-- The call `pa_assert_se(pa_asyncmsgq_send(u->manage_thread_mq.outq,
PA_MSGOBJECT(u->msg_from_glib), code, data, 0, NULL) == 0)`; `none` when the assertion
fails. -/
def send_from_glib (q : outq) (code : Int) (data : payload) : Option outq :=
  let r := pa_asyncmsgq_send q { code := code, data := data }
  if r.2 = 0 then some r.1 else none

/-- Function `static void last_change_cb(GUPnPServiceProxy *proxy, const char *variable,
GValue *value, gpointer userdata)`: the queue from the GLib context after the call; `none`
when a `pa_assert_se` fails. A `gboolean` handed over through `&muted` is read on the
other side as an `unsigned int`. -/
def last_change_cb (PA_SINK_MESSAGE_MAX : Int) (parsed : last_change) (q : outq) :
    Option outq :=
  let volume : Nat := G_MAXUINT
  let muted : Int := -1
  let volume := parsed.volume.getD volume
  let muted := parsed.muted.getD muted
  if ¬ (parsed.success = true) then some q
  else
    let q1 :=
      if volume ≠ G_MAXUINT then
        let v := volume_from_percent volume
        send_from_glib q (GUPNP_SINK_VOLUME_CHANGED PA_SINK_MESSAGE_MAX) (payload.uint v)
      else some q
    q1.bind fun q =>
      if muted ≠ -1 then
        send_from_glib q (GUPNP_SINK_MUTE_CHANGED PA_SINK_MESSAGE_MAX)
          (payload.uint (muted % (UINT_MODULUS : Int)).toNat)
      else some q

/-- The names of the remote actions invoked among a sequence of effects, in order. -/
def action_names : List sink_effect → List (List Char)
  | [] => []
  | sink_effect.gupnp_service_proxy_send_action action _ _ :: effects =>
    action :: action_names effects
  | _ :: effects => action_names effects

end gupnp_sink

/-! ## Theorems -/

/-- Below `2^32 / 100` the product in `volume_to_percent` does not wrap. -/
theorem volume_to_percent_exact (v : Nat) (hv : v ≤ 42949672) :
    volume_to_percent v = v * 100 / 65536 := by
  unfold volume_to_percent UINT_MODULUS
  rw [Nat.mod_eq_of_lt (by omega)]

/-- Below `65536` the product in `volume_from_percent` does not wrap. -/
theorem volume_from_percent_exact (v : Nat) (hv : v < 65536) :
    volume_from_percent v = v * 65536 / 100 := by
  unfold volume_from_percent UINT_MODULUS
  rw [Nat.mod_eq_of_lt (by omega)]

/-- C1: for every `v` with `0 <= v <= 65536`, `volume_from_percent (volume_to_percent v)`
never exceeds `v` and is at most 656 below it. -/
theorem volume_roundtrip_within_656 (v : Nat) (hv : v ≤ 65536) :
    volume_from_percent (volume_to_percent v) ≤ v ∧
      v - volume_from_percent (volume_to_percent v) ≤ 656 := by
  have h1 : volume_to_percent v = v * 100 / 65536 := volume_to_percent_exact v (by omega)
  have h2 : v * 100 / 65536 ≤ 100 := by omega
  rw [h1, volume_from_percent_exact _ (by omega)]
  omega

theorem volume_roundtrip_within_656_witness :
    (40000 : Nat) ≤ 65536 ∧
      (volume_from_percent (volume_to_percent 40000) ≤ 40000 ∧
        40000 - volume_from_percent (volume_to_percent 40000) ≤ 656) :=
  ⟨by decide, volume_roundtrip_within_656 40000 (by decide)⟩

/-- C2: `volume_to_percent` is monotonic non-decreasing on `[0, 65536]` and
`volume_from_percent` is monotonic non-decreasing on `[0, 100]`. -/
theorem volume_conversions_monotone :
    (∀ a b : Nat, a ≤ b → b ≤ 65536 → volume_to_percent a ≤ volume_to_percent b) ∧
      (∀ p q : Nat, p ≤ q → q ≤ 100 → volume_from_percent p ≤ volume_from_percent q) := by
  constructor
  · intro a b hab hb
    rw [volume_to_percent_exact a (by omega), volume_to_percent_exact b (by omega)]
    omega
  · intro p q hpq hq
    rw [volume_from_percent_exact p (by omega), volume_from_percent_exact q (by omega)]
    omega

theorem volume_conversions_monotone_witness :
    volume_to_percent 1000 ≤ volume_to_percent 65536 ∧
      volume_from_percent 3 ≤ volume_from_percent 100 :=
  ⟨volume_conversions_monotone.1 1000 65536 (by decide) (by decide),
   volume_conversions_monotone.2 3 100 (by decide) (by decide)⟩

/-- C3: the conversions stay inside the documented ranges and map the end
points of one range to the end points of the other. -/
theorem volume_conversions_in_range :
    (∀ v : Nat, v ≤ 65536 → volume_to_percent v ≤ 100) ∧
      volume_to_percent 0 = 0 ∧ volume_to_percent 65536 = 100 ∧
      (∀ p : Nat, p ≤ 100 → volume_from_percent p ≤ 65536) ∧
      volume_from_percent 0 = 0 ∧ volume_from_percent 100 = 65536 := by
  refine ⟨?_, by decide, by decide, ?_, by decide, by decide⟩
  · intro v hv
    rw [volume_to_percent_exact v (by omega)]
    omega
  · intro p hp
    rw [volume_from_percent_exact p (by omega)]
    omega

theorem volume_conversions_in_range_witness :
    volume_to_percent 12345 ≤ 100 ∧ volume_from_percent 42 ≤ 65536 :=
  ⟨volume_conversions_in_range.1 12345 (by decide),
   volume_conversions_in_range.2.2.2.1 42 (by decide)⟩

/-! ### Stream cipher -/

theorem write_chunk_length (data : List Nat) (i : Nat) (buf : Chunk)
    (h : i + 16 ≤ data.length) : (write_chunk data i buf).length = data.length := by
  unfold write_chunk
  rw [List.length_append, List.length_append, List.length_take, List.length_drop,
    List.length_ofFn]
  simp only [AES_CHUNKSIZE]
  omega

theorem write_chunk_getElem?_lt (data : List Nat) (i : Nat) (buf : Chunk) (a : Nat)
    (h : i + 16 ≤ data.length) (ha : a < i) :
    (write_chunk data i buf)[a]? = data[a]? := by
  unfold write_chunk
  rw [List.append_assoc,
    List.getElem?_append_left (by rw [List.length_take]; omega), List.getElem?_take_of_lt ha]

theorem write_chunk_getElem?_ge (data : List Nat) (i : Nat) (buf : Chunk) (a : Nat)
    (h : i + 16 ≤ data.length) (ha : i + 16 ≤ a) :
    (write_chunk data i buf)[a]? = data[a]? := by
  have hlen : (List.take i data ++ List.ofFn buf).length = i + 16 := by
    rw [List.length_append, List.length_take, List.length_ofFn]
    simp only [AES_CHUNKSIZE]
    omega
  unfold write_chunk
  rw [List.getElem?_append_right (by omega), hlen, List.getElem?_drop]
  simp only [AES_CHUNKSIZE]
  congr 1
  omega

theorem read_write_chunk (data : List Nat) (i : Nat) (buf : Chunk)
    (h : i + 16 ≤ data.length) : read_chunk (write_chunk data i buf) i = buf := by
  funext j
  have hj : j.val < 16 := j.isLt
  have hlen : (List.take i data).length = i := by
    rw [List.length_take]; omega
  unfold read_chunk write_chunk
  rw [List.append_assoc, List.getD_eq_getElem?_getD,
    List.getElem?_append_right (by omega), hlen,
    List.getElem?_append_left (by rw [List.length_ofFn]; simp only [AES_CHUNKSIZE]; omega),
    List.getElem?_ofFn]
  have e : i + j.val - i = j.val := by omega
  simp only [e, List.ofFnNthVal, Fin.is_lt, dite_true, Fin.eta, Option.getD_some]

theorem read_chunk_congr (d1 d2 : List Nat) (i : Nat)
    (h : ∀ a, i ≤ a → a < i + 16 → d1[a]? = d2[a]?) :
    read_chunk d1 i = read_chunk d2 i := by
  funext j
  have hj : j.val < 16 := j.isLt
  unfold read_chunk
  rw [List.getD_eq_getElem?_getD, List.getD_eq_getElem?_getD,
    h (i + j.val) (by omega) (by omega)]

theorem aes_encrypt_loop_spec {K : Type} (lib : raop_library K) (size : Int) :
    ∀ (fuel : Nat) (c : pa_raop_client K) (data : List Nat) (i : Nat),
      size ≤ (data.length : Int) → (size.toNat - i) / 16 < fuel →
      ∃ c' out,
        aes_encrypt_loop lib size fuel c data i
          = some (c', out, i + 16 * ((size.toNat - i) / 16)) ∧
        out.length = data.length ∧
        (∀ a, a < i → out[a]? = data[a]?) ∧
        (∀ a, i + 16 * ((size.toNat - i) / 16) ≤ a → out[a]? = data[a]?) ∧
        c' = { c with aes_nv := c'.aes_nv } ∧
        (∀ k, i + 16 * k + 16 ≤ size.toNat →
          read_chunk out (i + 16 * k)
            = lib.AES_encrypt c.aes (xor_chunk (read_chunk data (i + 16 * k))
                (if k = 0 then c.aes_nv else read_chunk out (i + 16 * (k - 1))))) ∧
        c'.aes_nv = (if i + 16 ≤ size.toNat
          then read_chunk out (i + 16 * ((size.toNat - i) / 16) - 16) else c.aes_nv) := by
  intro fuel
  induction fuel with
  | zero => intro c data i _ hf; omega
  | succ fuel ih =>
    intro c data i hlen hfuel
    by_cases hc : (i : Int) + (AES_CHUNKSIZE : Int) ≤ size
    · have hi : i + 16 ≤ size.toNat := by simp only [AES_CHUNKSIZE] at hc; omega
      have hil : i + 16 ≤ data.length := by omega
      have hq : (size.toNat - i) / 16 = (size.toNat - (i + 16)) / 16 + 1 := by omega
      obtain ⟨c', out, hrun, hl, hlt, hge, hframe, hcbc, hnv⟩ :=
        ih { c with aes_nv := lib.AES_encrypt c.aes (xor_chunk (read_chunk data i) c.aes_nv) }
          (write_chunk data i (lib.AES_encrypt c.aes (xor_chunk (read_chunk data i) c.aes_nv)))
          (i + 16) (by rw [write_chunk_length _ _ _ hil]; exact hlen) (by omega)
      simp only at hframe hcbc hnv
      have hfin : i + 16 * ((size.toNat - i) / 16)
          = i + 16 + 16 * ((size.toNat - (i + 16)) / 16) := by omega
      have hblk0 : read_chunk out i
          = lib.AES_encrypt c.aes (xor_chunk (read_chunk data i) c.aes_nv) := by
        rw [← read_write_chunk data i
          (lib.AES_encrypt c.aes (xor_chunk (read_chunk data i) c.aes_nv)) hil]
        exact read_chunk_congr _ _ _ (fun a _ h2 => hlt a h2)
      refine ⟨c', out, ?_, ?_, ?_, ?_, ?_, ?_, ?_⟩
      · rw [aes_encrypt_loop, if_pos hc, hfin]
        exact hrun
      · rw [hl, write_chunk_length _ _ _ hil]
      · intro a ha
        rw [hlt a (by omega), write_chunk_getElem?_lt _ _ _ _ hil ha]
      · intro a ha
        rw [hge a (by omega), write_chunk_getElem?_ge _ _ _ _ hil (by omega)]
      · rw [hframe]
      · intro k hk
        rcases Nat.eq_zero_or_pos k with h0 | hpos
        · subst h0
          simpa using hblk0
        · have h1 := hcbc (k - 1) (by omega)
          have e1 : i + 16 + 16 * (k - 1) = i + 16 * k := by omega
          have hk0 : ¬ k = 0 := by omega
          have hrd : read_chunk (write_chunk data i
              (lib.AES_encrypt c.aes (xor_chunk (read_chunk data i) c.aes_nv))) (i + 16 * k)
              = read_chunk data (i + 16 * k) :=
            read_chunk_congr _ _ _ (fun a h1 _ =>
              write_chunk_getElem?_ge _ _ _ _ hil (by omega))
          rw [e1, hrd] at h1
          rw [h1, if_neg hk0]
          by_cases hk1 : k - 1 = 0
          · rw [if_pos hk1]
            have : i + 16 * (k - 1) = i := by omega
            rw [this, hblk0]
          · rw [if_neg hk1]
            have : i + 16 + 16 * (k - 1 - 1) = i + 16 * (k - 1) := by omega
            rw [this]
      · rw [hnv, if_pos hi]
        by_cases h2 : i + 16 + 16 ≤ size.toNat
        · rw [if_pos h2, hfin]
        · rw [if_neg h2]
          have : i + 16 * ((size.toNat - i) / 16) - 16 = i := by omega
          rw [this, hblk0]
    · have hi : ¬ i + 16 ≤ size.toNat := by simp only [AES_CHUNKSIZE] at hc; omega
      have hq : (size.toNat - i) / 16 = 0 := by omega
      refine ⟨c, data, ?_, rfl, fun _ _ => rfl, fun _ _ => rfl, rfl, ?_, ?_⟩
      · rw [aes_encrypt_loop, if_neg hc, hq]
        rfl
      · intro k hk
        omega
      · rw [if_neg hi]


theorem aes_encrypt_spec {K : Type} (lib : raop_library K) (c : pa_raop_client K)
    (data : List Nat) (size : Int) (hbuf : size ≤ (data.length : Int)) :
    ∃ c' out,
      aes_encrypt lib c data size = some (c', out, ((16 * (size.toNat / 16) : Nat) : Int)) ∧
      out.length = data.length ∧
      (∀ a, 16 * (size.toNat / 16) ≤ a → out[a]? = data[a]?) ∧
      c' = { c with aes_nv := c'.aes_nv } ∧
      (∀ k, 16 * k + 16 ≤ size.toNat →
        read_chunk out (16 * k)
          = lib.AES_encrypt c.aes (xor_chunk (read_chunk data (16 * k))
              (if k = 0 then c.aes_iv else read_chunk out (16 * (k - 1))))) ∧
      c'.aes_nv = (if 16 ≤ size.toNat
        then read_chunk out (16 * (size.toNat / 16) - 16) else c.aes_iv) := by
  obtain ⟨c', out, hrun, hl, _, hge, hframe, hcbc, hnv⟩ :=
    aes_encrypt_loop_spec lib size (size.toNat / AES_CHUNKSIZE + 1)
      { c with aes_nv := c.aes_iv } data 0 hbuf (by simp only [AES_CHUNKSIZE]; omega)
  simp only [Nat.zero_add, Nat.sub_zero] at hrun hge hcbc hnv hframe
  refine ⟨c', out, ?_, hl, hge, ?_, hcbc, hnv⟩
  · unfold aes_encrypt
    simp only [hrun, Option.map_some']
  · rw [hframe]

/-- C4: `aes_encrypt` chains the full 16-byte blocks of the buffer in CBC fashion: for
every `k` below `floor(size / 16)`, the sixteen bytes of output block `k` are the block
transform `E_key` applied to the block whose byte `j` is byte `j` of input block `k` XOR
byte `j` of output block `k - 1`, the initialisation vector standing in for the previous
output block when `k = 0`. -/
theorem aes_encrypt_cbc_chaining {K : Type} (lib : raop_library K) (c : pa_raop_client K)
    (data : List Nat) (size : Int) (k : Nat)
    (hbuf : size ≤ (data.length : Int)) (_hint : size + 16 ≤ INT_MAX)
    (hk : (k : Int) < size / 16) :
    ∃ c' out ret,
      aes_encrypt lib c data size = some (c', out, ret) ∧
      ∀ j : Fin 16,
        out.getD (16 * k + j.val) 0
          = lib.AES_encrypt c.aes
              (fun i : Fin 16 =>
                data.getD (16 * k + i.val) 0 ^^^
                  (if k = 0 then c.aes_iv i else out.getD (16 * (k - 1) + i.val) 0)) j := by
  obtain ⟨c', out, hrun, _, _, _, hcbc, _⟩ := aes_encrypt_spec lib c data size hbuf
  refine ⟨c', out, _, hrun, fun j => ?_⟩
  have h := congrFun (hcbc k (by omega)) j
  have hx : xor_chunk (read_chunk data (16 * k))
        (if k = 0 then c.aes_iv else read_chunk out (16 * (k - 1)))
      = (fun i : Fin 16 =>
          data.getD (16 * k + i.val) 0 ^^^
            (if k = 0 then c.aes_iv i else out.getD (16 * (k - 1) + i.val) 0)) := by
    funext i
    by_cases hk0 : k = 0
    · simp only [xor_chunk, read_chunk, if_pos hk0]
    · simp only [xor_chunk, read_chunk, if_neg hk0]
  rw [hx] at h
  exact h

theorem aes_encrypt_cbc_chaining_witness :
    ∃ c' out ret,
      aes_encrypt example_library example_connected (List.range 40) 40 = some (c', out, ret) ∧
      ∀ j : Fin 16,
        out.getD (16 * 1 + j.val) 0
          = example_library.AES_encrypt example_connected.aes
              (fun i : Fin 16 =>
                (List.range 40).getD (16 * 1 + i.val) 0 ^^^
                  (if 1 = 0 then example_connected.aes_iv i
                   else out.getD (16 * (1 - 1) + i.val) 0)) j :=
  aes_encrypt_cbc_chaining example_library example_connected (List.range 40) 40 1
    (by decide) (by decide) (by decide)

/-- C5: `aes_encrypt` returns `16 * floor(size / 16)` (0 for a size below 16, negative
sizes included), keeps the buffer length and leaves every byte at an index from the
returned value on unchanged. -/
theorem aes_encrypt_return_and_tail {K : Type} (lib : raop_library K)
    (c : pa_raop_client K) (data : List Nat) (size : Int)
    (hbuf : size ≤ (data.length : Int)) (_hint : size + 16 ≤ INT_MAX) :
    ∃ c' out ret,
      aes_encrypt lib c data size = some (c', out, ret) ∧
      ret = (if 0 ≤ size then 16 * (size / 16) else 0) ∧
      (size < 16 → ret = 0) ∧
      out.length = data.length ∧
      (∀ a : Nat, ret ≤ (a : Int) → out[a]? = data[a]?) := by
  obtain ⟨c', out, hrun, hl, hge, _, _, _⟩ := aes_encrypt_spec lib c data size hbuf
  refine ⟨c', out, _, hrun, ?_, ?_, hl, ?_⟩
  · split <;> omega
  · intro h
    omega
  · intro a ha
    exact hge a (by omega)

theorem aes_encrypt_return_and_tail_witness :
    ∃ c' out ret,
      aes_encrypt example_library example_connected (List.range 40) 40 = some (c', out, ret) ∧
      ret = (if (0 : Int) ≤ 40 then 16 * (40 / 16) else 0) ∧
      ((40 : Int) < 16 → ret = 0) ∧
      out.length = (List.range 40).length ∧
      (∀ a : Nat, ret ≤ (a : Int) → out[a]? = (List.range 40)[a]?) :=
  aes_encrypt_return_and_tail example_library example_connected (List.range 40) 40
    (by decide) (by decide)

theorem produced_chunks_getLast? (out : List Nat) (n : Nat) :
    (produced_chunks out ((16 * n : Nat) : Int)).getLast?
      = if 1 ≤ n then some (read_chunk out (16 * n - 16)) else none := by
  have hq : ((16 * n : Nat) : Int).toNat / AES_CHUNKSIZE = n := by
    simp only [AES_CHUNKSIZE, Int.toNat_ofNat]
    omega
  unfold produced_chunks
  rw [hq]
  cases n with
  | zero => simp
  | succ m =>
    rw [List.range_succ, List.map_append, List.map_singleton, List.getLast?_concat]
    have : 16 * (m + 1) - 16 = AES_CHUNKSIZE * m := by simp only [AES_CHUNKSIZE]; omega
    simp [this]

/-- C6 (as the code has it): `pa_raop_client_connect` leaves `aes_nv` equal to the
initialisation vector, and each `aes_encrypt` call, from whatever client state, keeps the
initialisation vector and leaves in `aes_nv` the last ciphertext block that this call
produced, or the initialisation vector when this call produced no block. -/
theorem aes_nv_after_connect_and_encrypt {K : Type} (lib : raop_library K) :
    (∀ (c : pa_raop_client K) (host : List Char) (iv key : Chunk) (a b d : Nat)
        (localip : List Char) (status : Int),
        (pa_raop_client_connect lib c host iv key a b d localip status).1.aes_iv = iv ∧
        (pa_raop_client_connect lib c host iv key a b d localip status).1.aes_nv = iv) ∧
    (∀ (c : pa_raop_client K) (data : List Nat) (size : Int),
        size ≤ (data.length : Int) → size + 16 ≤ INT_MAX →
        ∃ c' out ret,
          aes_encrypt lib c data size = some (c', out, ret) ∧
          c'.aes_iv = c.aes_iv ∧
          c'.aes_nv = (produced_chunks out ret).getLast?.getD c.aes_iv) := by
  refine ⟨fun c host iv key a b d localip status => ⟨rfl, rfl⟩, ?_⟩
  intro c data size hbuf _
  obtain ⟨c', out, hrun, _, _, hframe, _, hnv⟩ := aes_encrypt_spec lib c data size hbuf
  refine ⟨c', out, _, hrun, by rw [hframe], ?_⟩
  rw [hnv, produced_chunks_getLast?]
  by_cases h : 16 ≤ size.toNat
  · rw [if_pos h, if_pos (by omega)]
    rfl
  · rw [if_neg h, if_neg (by omega)]
    rfl

theorem aes_nv_after_connect_and_encrypt_witness :
    ∃ c' out ret,
      aes_encrypt example_library example_connected (List.range 40) 40 = some (c', out, ret) ∧
      c'.aes_iv = example_connected.aes_iv ∧
      c'.aes_nv = (produced_chunks out ret).getLast?.getD example_connected.aes_iv :=
  (aes_nv_after_connect_and_encrypt example_library).2 example_connected (List.range 40) 40
    (by decide) (by decide)

/-- C6, the claim as written, fails: connect, encrypt one 16-byte block, then call
`aes_encrypt` on an empty buffer. One ciphertext block was produced (first byte 8), yet
`aes_nv` is back at the initialisation vector (first byte 7). -/
theorem aes_nv_last_block_counterexample :
    (aes_encrypt_calls example_library example_connected
        [(List.replicate 16 0, 16), ([], 0)]).map
      (fun r => (r.1.aes_nv 0, (r.2.getLast?.getD example_connected.aes_iv) 0, r.2.length))
      = some (7, 8, 1) := by
  decide

/-! ### Session callback -/

theorem strcmp_eq_zero_iff (a b : List Char) : strcmp a b = 0 ↔ a = b := by
  induction a generalizing b with
  | nil => cases b <;> simp [strcmp]
  | cons x xs ih =>
    cases b with
    | nil => simp [strcmp]
    | cons y ys =>
      by_cases hxy : x = y
      · simp [strcmp, hxy, ih]
      · by_cases hlt : x.toNat < y.toNat <;> simp [strcmp, hxy, hlt]

theorem strstr_some (hay needle : List Char) (pc : Nat) (h : strstr hay needle = some pc) :
    needle.isPrefixOf (hay.drop pc) = true ∧ pc ≤ hay.length := by
  induction hay generalizing pc with
  | nil =>
    unfold strstr at h
    split at h
    · rename_i hn
      cases h
      simp [hn]
    · cases h
  | cons x xs ih =>
    unfold strstr at h
    split at h
    · rename_i hp
      cases h
      exact ⟨hp, Nat.zero_le _⟩
    · cases hs : strstr xs needle with
      | none => rw [hs] at h; cases h
      | some k =>
        rw [hs] at h
        simp only [Option.map_some', Option.some.injEq] at h
        subst h
        have := ih k hs
        exact ⟨this.1, Nat.succ_le_succ this.2⟩

theorem strstr_none (hay needle : List Char) (h : strstr hay needle = none) (k : Nat) :
    needle.isPrefixOf (hay.drop k) = false := by
  induction hay generalizing k with
  | nil =>
    unfold strstr at h
    split at h
    · cases h
    · rename_i hn
      cases needle with
      | nil => exact absurd rfl hn
      | cons _ _ => simp
  | cons x xs ih =>
    unfold strstr at h
    split at h
    · cases h
    · rename_i hp
      cases hs : strstr xs needle with
      | some j => rw [hs] at h; cases h
      | none =>
        cases k with
        | zero => exact Bool.eq_false_iff.mpr hp
        | succ k => exact ih hs k

theorem setup_token_eq {K : Type} (c : pa_raop_client K) (token : List Char) :
    setup_token c token =
      { c with
        jack_type := if token = "type=digital".toList then JACK_TYPE_DIGITAL else c.jack_type,
        jack_status :=
          if token = "connected".toList then JACK_STATUS_CONNECTED else c.jack_status } := by
  unfold setup_token
  cases hs : strstr token ("=".toList) with
  | some pc =>
    obtain ⟨hpre, hle⟩ := strstr_some _ _ _ hs
    have hsplit : token = token.take pc ++ '=' :: token.drop (pc + 1) := by
      have h1 : ['='] <+: token.drop pc := List.isPrefixOf_iff_prefix.mp hpre
      obtain ⟨t, ht⟩ := h1
      have h2 : token.drop (pc + 1) = t := by
        rw [← List.drop_drop 1 pc token, ← ht]
        rfl
      rw [h2]
      calc token = token.take pc ++ token.drop pc := (List.take_append_drop pc token).symm
        _ = token.take pc ++ '=' :: t := by rw [← ht]; rfl
    have hconn : token ≠ "connected".toList := by
      intro h
      have e : strstr ("connected".toList) ("=".toList) = none := by decide
      rw [h, e] at hs
      cases hs
    by_cases hd : token = "type=digital".toList
    · have hpc : pc = 4 := by
        have e : strstr ("type=digital".toList) ("=".toList) = some 4 := by decide
        rw [hd, e] at hs
        exact (Option.some.inj hs).symm
      subst hpc
      subst hd
      simp only [ne_eq, not_false_eq_true, if_neg, if_true]
      rw [if_pos (by decide), if_neg (by decide)]
    · have : ¬ (strcmp (token.take pc) ("type".toList) = 0
          ∧ strcmp (token.drop (pc + 1)) ("digital".toList) = 0) := by
        rw [strcmp_eq_zero_iff, strcmp_eq_zero_iff]
        rintro ⟨h1, h2⟩
        apply hd
        rw [hsplit, h1, h2]
        rfl
      simp only [this, if_false, hd, hconn]
  | none =>
    have hd : token ≠ "type=digital".toList := by
      intro h
      have e : strstr ("type=digital".toList) ("=".toList) = some 4 := by decide
      rw [h, e] at hs
      cases hs
    simp only [strcmp_eq_zero_iff, hd, if_false]
    by_cases hc : token = "connected".toList
    · simp only [hc, if_true]
    · simp only [hc, if_false]

theorem strcspn_semicolon (cur : List Char) :
    strcspn cur (";".toList) = (cur.takeWhile (fun ch => !(ch == ';'))).length := by
  unfold strcspn
  congr 2
  funext ch
  simp only [String.toList, List.contains, List.elem]
  cases (ch == ';') <;> rfl

theorem pa_split_some (aj cur : List Char) (h : cur ≠ []) :
    pa_split aj (";".toList) (some cur)
      = some (cur.takeWhile (fun ch => !(ch == ';')),
          some ((cur.dropWhile (fun ch => !(ch == ';'))).drop 1)) := by
  have hcat := List.takeWhile_append_dropWhile (fun ch => !(ch == ';')) cur
  have htake : cur.take (cur.takeWhile (fun ch => !(ch == ';'))).length
      = cur.takeWhile (fun ch => !(ch == ';')) := by
    exact (congrArg (List.take _) hcat.symm).trans (List.take_left' rfl)
  have hdrop : cur.drop (cur.takeWhile (fun ch => !(ch == ';'))).length
      = cur.dropWhile (fun ch => !(ch == ';')) := by
    exact (congrArg (List.drop _) hcat.symm).trans (List.drop_left' rfl)
  unfold pa_split
  simp only [Option.getD_some, if_neg h, strcspn_semicolon, htake, hdrop]
  by_cases hd : cur.dropWhile (fun ch => !(ch == ';')) = []
  · simp [hd]
  · simp [hd]

theorem splitOn_semicolon_step (cur : List Char) :
    (cur.dropWhile (fun ch => !(ch == ';')) = [] ∧ cur.splitOn ';' = [cur]
        ∧ cur.takeWhile (fun ch => !(ch == ';')) = cur) ∨
    (∃ rest, cur.dropWhile (fun ch => !(ch == ';')) = ';' :: rest ∧
      cur.splitOn ';' = cur.takeWhile (fun ch => !(ch == ';')) :: rest.splitOn ';') := by
  have hcat := List.takeWhile_append_dropWhile (fun ch => !(ch == ';')) cur
  have hfree : ∀ x ∈ cur.takeWhile (fun ch => !(ch == ';')), ¬ ((x == ';') = true) := by
    intro x hx
    have := List.mem_takeWhile_imp hx
    simpa using this
  cases hd : cur.dropWhile (fun ch => !(ch == ';')) with
  | nil =>
    left
    rw [hd, List.append_nil] at hcat
    refine ⟨rfl, ?_, hcat⟩
    rw [hcat] at hfree
    exact List.splitOnP_eq_single _ _ hfree
  | cons y rest =>
    right
    have hy : y = ';' := by
      have h0 := List.head_dropWhile_not (fun ch => !(ch == ';')) cur (by rw [hd]; simp)
      simp only [hd, List.head_cons] at h0
      simpa using h0
    subst hy
    refine ⟨rest, rfl, ?_⟩
    rw [hd] at hcat
    conv_lhs => rw [← hcat]
    exact List.splitOnP_first _ _ hfree ';' (by simp) rest

theorem ite_mem_cons (T tw : List Char) (S : List (List Char)) (D x : Nat) :
    (if T ∈ S then D else if tw = T then D else x) = (if T ∈ tw :: S then D else x) := by
  by_cases h1 : T ∈ S
  · rw [if_pos h1, if_pos (List.mem_cons_of_mem _ h1)]
  · rw [if_neg h1]
    by_cases h2 : tw = T
    · rw [if_pos h2, if_pos (by rw [h2]; exact List.mem_cons_self _ _)]
    · rw [if_neg h2, if_neg]
      intro h
      rcases List.mem_cons.mp h with h3 | h3
      · exact h2 h3.symm
      · exact h1 h3

theorem ite_mem_singleton (T tw : List Char) (S : List (List Char)) (D x : Nat)
    (hS : ¬ T ∈ S) :
    (if T ∈ S then D else if tw = T then D else x) = (if T ∈ [tw] then D else x) := by
  rw [ite_mem_cons]
  refine if_congr ?_ rfl rfl
  constructor
  · intro h
    rcases List.mem_cons.mp h with h3 | h3
    · rw [h3]; exact List.mem_singleton_self _
    · exact absurd h3 hS
  · intro h
    rw [List.mem_singleton.mp h]
    exact List.mem_cons_self _ _

theorem setup_token_loop_spec {K : Type} (aj : List Char) :
    ∀ (fuel : Nat) (cur : List Char) (c : pa_raop_client K), cur.length < fuel →
      setup_token_loop aj fuel (some cur) c = some
        { c with
          jack_type :=
            if "type=digital".toList ∈ cur.splitOn ';' then JACK_TYPE_DIGITAL else c.jack_type,
          jack_status :=
            if "connected".toList ∈ cur.splitOn ';' then JACK_STATUS_CONNECTED
            else c.jack_status } := by
  have hd0 : ¬ "type=digital".toList ∈ ([] : List Char).splitOn ';' := by decide
  have hc0 : ¬ "connected".toList ∈ ([] : List Char).splitOn ';' := by decide
  intro fuel
  induction fuel with
  | zero => intro cur c h; omega
  | succ fuel ih =>
    intro cur c hlen
    by_cases hnil : cur = []
    · subst hnil
      rw [if_neg hd0, if_neg hc0]
      rfl
    · have hcat := List.takeWhile_append_dropWhile (fun ch => !(ch == ';')) cur
      have hlen2 : ((cur.dropWhile (fun ch => !(ch == ';'))).drop 1).length < fuel := by
        have h1 : (cur.dropWhile (fun ch => !(ch == ';'))).length ≤ cur.length := by
          conv_rhs => rw [← hcat]
          rw [List.length_append]
          omega
        have h2 : 0 < cur.length := List.length_pos.mpr hnil
        rw [List.length_drop]
        omega
      unfold setup_token_loop
      rw [pa_split_some aj cur hnil]
      show setup_token_loop aj fuel _ (setup_token c _) = _
      rw [ih _ _ hlen2, setup_token_eq]
      show some { c with jack_type := _, jack_status := _ } = _
      rcases splitOn_semicolon_step cur with ⟨hd, hs, htw⟩ | ⟨rest, hd, hs⟩
      · rw [hd, hs, List.drop_nil, ite_mem_singleton _ _ _ _ _ hd0,
          ite_mem_singleton _ _ _ _ _ hc0, htw]
      · have e : List.drop 1 (';' :: rest) = rest := rfl
        rw [hd, hs, e, ite_mem_cons, ite_mem_cons]

theorem rtsp_cb_setup_present {K : Type} (lib : raop_library K) (challenge : List Nat)
    (headers : pa_headerlist) (c : pa_raop_client K) (aj : List Char)
    (h : pa_headerlist_gets headers ("Audio-Jack-Status".toList) = some aj) :
    rtsp_cb lib challenge pa_rtsp_state.STATE_SETUP headers c = some
      { c with
        jack_type :=
          if "type=digital".toList ∈ aj.splitOn ';' then JACK_TYPE_DIGITAL else JACK_TYPE_ANALOG,
        jack_status :=
          if "connected".toList ∈ aj.splitOn ';' then JACK_STATUS_CONNECTED
          else JACK_STATUS_DISCONNECTED,
        rtsp := pa_rtsp_record c.rtsp } := by
  have hloop : ∀ c0 : pa_raop_client K,
      setup_token_loop aj (aj.length + 1) none c0
        = setup_token_loop aj (aj.length + 1) (some aj) c0 := fun _ => rfl
  unfold rtsp_cb
  simp only [h]
  rw [hloop, setup_token_loop_spec aj _ aj _ (Nat.lt_succ_self _)]
  rfl

/-- C7: on the Setup acknowledgement with an `Audio-Jack-Status` value present, the jack
type becomes digital exactly when one of the `;`-separated tokens is `type=digital`
(analog otherwise), the jack status becomes connected exactly when one of them is
`connected` (disconnected otherwise), whatever the client held before, and the record
request is issued, moving the session to Record; `type=digital;connected` gives digital
and connected. -/
theorem setup_ack_parses_jack_status {K : Type} (lib : raop_library K)
    (challenge : List Nat) (headers : pa_headerlist) (c : pa_raop_client K) (aj : List Char)
    (h : pa_headerlist_gets headers ("Audio-Jack-Status".toList) = some aj) :
    ∃ c', rtsp_cb lib challenge pa_rtsp_state.STATE_SETUP headers c = some c' ∧
      (c'.jack_type = JACK_TYPE_DIGITAL ↔ "type=digital".toList ∈ aj.splitOn ';') ∧
      (c'.jack_type = JACK_TYPE_ANALOG ↔ ¬ "type=digital".toList ∈ aj.splitOn ';') ∧
      (c'.jack_status = JACK_STATUS_CONNECTED ↔ "connected".toList ∈ aj.splitOn ';') ∧
      (c'.jack_status = JACK_STATUS_DISCONNECTED ↔ ¬ "connected".toList ∈ aj.splitOn ';') ∧
      c'.rtsp.requests = c.rtsp.requests ++ [rtsp_request.RECORD] ∧
      c'.rtsp.state = pa_rtsp_state.STATE_RECORD ∧
      (aj = "type=digital;connected".toList →
        c'.jack_type = JACK_TYPE_DIGITAL ∧ c'.jack_status = JACK_STATUS_CONNECTED) := by
  have hne : JACK_TYPE_ANALOG ≠ JACK_TYPE_DIGITAL := by decide
  have hne2 : JACK_STATUS_DISCONNECTED ≠ JACK_STATUS_CONNECTED := by decide
  refine ⟨_, rtsp_cb_setup_present lib challenge headers c aj h, ?_, ?_, ?_, ?_, rfl, rfl, ?_⟩
  · show (if _ then _ else _) = _ ↔ _
    by_cases hd : "type=digital".toList ∈ aj.splitOn ';'
    · rw [if_pos hd]; exact ⟨fun _ => hd, fun _ => rfl⟩
    · rw [if_neg hd]; exact ⟨fun e => absurd e hne, fun e => absurd e hd⟩
  · show (if _ then _ else _) = _ ↔ _
    by_cases hd : "type=digital".toList ∈ aj.splitOn ';'
    · rw [if_pos hd]; exact ⟨fun e => absurd e.symm hne, fun e => absurd hd e⟩
    · rw [if_neg hd]; exact ⟨fun _ => hd, fun _ => rfl⟩
  · show (if _ then _ else _) = _ ↔ _
    by_cases hd : "connected".toList ∈ aj.splitOn ';'
    · rw [if_pos hd]; exact ⟨fun _ => hd, fun _ => rfl⟩
    · rw [if_neg hd]; exact ⟨fun e => absurd e hne2, fun e => absurd e hd⟩
  · show (if _ then _ else _) = _ ↔ _
    by_cases hd : "connected".toList ∈ aj.splitOn ';'
    · rw [if_pos hd]; exact ⟨fun e => absurd e.symm hne2, fun e => absurd hd e⟩
    · rw [if_neg hd]; exact ⟨fun _ => hd, fun _ => rfl⟩
  · intro haj
    subst haj
    have h1 : "type=digital".toList ∈ ("type=digital;connected".toList).splitOn ';' := by
      decide
    have h2 : "connected".toList ∈ ("type=digital;connected".toList).splitOn ';' := by
      decide
    exact ⟨@if_pos _ _ h1 _ JACK_TYPE_DIGITAL JACK_TYPE_ANALOG,
      @if_pos _ _ h2 _ JACK_STATUS_CONNECTED JACK_STATUS_DISCONNECTED⟩

theorem setup_ack_parses_jack_status_witness :
    ∃ c', rtsp_cb example_library [] pa_rtsp_state.STATE_SETUP
        [("Audio-Jack-Status".toList, "connected;type=analog".toList)] example_client
          = some c' ∧
      (c'.jack_type = JACK_TYPE_DIGITAL ↔
        "type=digital".toList ∈ ("connected;type=analog".toList).splitOn ';') ∧
      (c'.jack_type = JACK_TYPE_ANALOG ↔
        ¬ "type=digital".toList ∈ ("connected;type=analog".toList).splitOn ';') ∧
      (c'.jack_status = JACK_STATUS_CONNECTED ↔
        "connected".toList ∈ ("connected;type=analog".toList).splitOn ';') ∧
      (c'.jack_status = JACK_STATUS_DISCONNECTED ↔
        ¬ "connected".toList ∈ ("connected;type=analog".toList).splitOn ';') ∧
      c'.rtsp.requests = example_client.rtsp.requests ++ [rtsp_request.RECORD] ∧
      c'.rtsp.state = pa_rtsp_state.STATE_RECORD ∧
      ("connected;type=analog".toList = "type=digital;connected".toList →
        c'.jack_type = JACK_TYPE_DIGITAL ∧ c'.jack_status = JACK_STATUS_CONNECTED) :=
  setup_ack_parses_jack_status example_library [] _ example_client _ (by decide)

/-- C8: on the Setup acknowledgement without an `Audio-Jack-Status` header the callback
changes nothing: no request is issued, the session state stays what it was (Setup), and
the jack type and jack status keep their values. -/
theorem setup_ack_without_status_header {K : Type} (lib : raop_library K)
    (challenge : List Nat) (headers : pa_headerlist) (c : pa_raop_client K)
    (h : pa_headerlist_gets headers ("Audio-Jack-Status".toList) = none) :
    ∃ c', rtsp_cb lib challenge pa_rtsp_state.STATE_SETUP headers c = some c' ∧
      c'.rtsp.requests = c.rtsp.requests ∧
      c'.rtsp.state = c.rtsp.state ∧
      (c.rtsp.state = pa_rtsp_state.STATE_SETUP → c'.rtsp.state = pa_rtsp_state.STATE_SETUP) ∧
      c'.jack_type = c.jack_type ∧
      c'.jack_status = c.jack_status ∧
      c' = c := by
  refine ⟨c, ?_, rfl, rfl, fun e => e, rfl, rfl, rfl⟩
  unfold rtsp_cb
  simp only [h]

theorem setup_ack_without_status_header_witness :
    ∃ c', rtsp_cb example_library [] pa_rtsp_state.STATE_SETUP
        [("Content-Length".toList, "0".toList)]
        { example_client with rtsp := pa_rtsp_setup example_client.rtsp } = some c' ∧
      c'.rtsp.requests = (pa_rtsp_setup example_client.rtsp).requests ∧
      c'.rtsp.state = (pa_rtsp_setup example_client.rtsp).state ∧
      ((pa_rtsp_setup example_client.rtsp).state = pa_rtsp_state.STATE_SETUP →
        c'.rtsp.state = pa_rtsp_state.STATE_SETUP) ∧
      c'.jack_type = example_client.jack_type ∧
      c'.jack_status = example_client.jack_status ∧
      c' = { example_client with rtsp := pa_rtsp_setup example_client.rtsp } :=
  setup_ack_without_status_header example_library [] _
    { example_client with rtsp := pa_rtsp_setup example_client.rtsp } (by decide)

/-! ### Device registry -/

namespace gupnp_discover

theorem unavailable_loop_absent (proxy : Nat) (devices : List pa_upnp_device)
    (h : ∀ dev ∈ devices, dev.proxy ≠ proxy) :
    unavailable_loop proxy devices = (devices, []) := by
  induction devices with
  | nil => rfl
  | cons dev tmp ih =>
    have h1 : dev.proxy ≠ proxy := h dev (List.mem_cons_self _ _)
    have h2 := ih (fun d hd => h d (List.mem_cons_of_mem _ hd))
    unfold unavailable_loop
    simp only [h2, if_neg h1]

theorem unavailable_loop_clears (proxy : Nat) (devices : List pa_upnp_device) :
    ∀ dev ∈ (unavailable_loop proxy devices).1, dev.proxy ≠ proxy := by
  induction devices with
  | nil => intro dev hd; cases hd
  | cons d tmp ih =>
    intro dev hd
    unfold unavailable_loop at hd
    by_cases hp : d.proxy = proxy
    · simp only [if_pos hp] at hd
      exact ih dev hd
    · simp only [if_neg hp] at hd
      rcases List.mem_cons.mp hd with h1 | h1
      · rw [h1]; exact hp
      · exact ih dev h1

/-- C9 (as the code has it): handling an Available event returns 0 whether or not the
proxy is already in the registry; a successful module load prepends one entry holding
the proxy and the module index, so the number of entries for that proxy grows by one,
and a failed load leaves the registry as it was. -/
theorem available_always_prepends (PA_SINK_MESSAGE_MAX : Int) (udn : Nat → List Char)
    (module_load : List Char → List Char → Option Nat) (o : pa_gupnp_discover_msg) :
    ∃ o' effects,
      process_msg_from_glib PA_SINK_MESSAGE_MAX udn module_load o
        (GUPNP_DISCOVER_CONTEXT_AVAILABLE PA_SINK_MESSAGE_MAX) = some (0, o', effects) ∧
      (∀ index, module_load DEVICE_MODULE_NAME ("udn=".toList ++ udn o.proxy) = some index →
        o'.userdata.devices = { proxy := o.proxy, module_index := index } :: o.userdata.devices ∧
        (o'.userdata.devices.filter (fun dev => dev.proxy = o.proxy)).length
          = (o.userdata.devices.filter (fun dev => dev.proxy = o.proxy)).length + 1) ∧
      (module_load DEVICE_MODULE_NAME ("udn=".toList ++ udn o.proxy) = none →
        o'.userdata.devices = o.userdata.devices) := by
  unfold process_msg_from_glib
  simp only [if_true]
  cases hm : module_load DEVICE_MODULE_NAME ("udn=".toList ++ udn o.proxy) with
  | none =>
    refine ⟨_, _, rfl, ?_, fun _ => rfl⟩
    intro index hi
    cases hi
  | some idx =>
    refine ⟨_, _, rfl, ?_, ?_⟩
    · intro index hi
      cases hi
      refine ⟨rfl, ?_⟩
      simp
    · intro h
      cases h

theorem available_always_prepends_witness :
    ∃ o' effects,
      process_msg_from_glib 0 (fun _ => []) (fun _ _ => some 4)
        { userdata := { devices := [{ proxy := 7, module_index := 3 }] }, proxy := 7 }
        (GUPNP_DISCOVER_CONTEXT_AVAILABLE 0) = some (0, o', effects) ∧
      (∀ index, (fun _ _ => some 4 : List Char → List Char → Option Nat) DEVICE_MODULE_NAME
          ("udn=".toList ++ (fun _ => []) 7) = some index →
        o'.userdata.devices
          = { proxy := 7, module_index := index } :: [{ proxy := 7, module_index := 3 }] ∧
        (o'.userdata.devices.filter (fun dev => dev.proxy = 7)).length
          = (([{ proxy := 7, module_index := 3 }] : List pa_upnp_device).filter
              (fun dev => dev.proxy = 7)).length + 1) ∧
      ((fun _ _ => some 4 : List Char → List Char → Option Nat) DEVICE_MODULE_NAME
          ("udn=".toList ++ (fun _ => []) 7) = none →
        o'.userdata.devices = [{ proxy := 7, module_index := 3 }]) :=
  available_always_prepends 0 (fun _ => []) (fun _ _ => some 4)
    { userdata := { devices := [{ proxy := 7, module_index := 3 }] }, proxy := 7 }

/-- C9, the claim as written, fails: starting from an empty registry, two Available
events for proxy 7, each with a successful module load (indices 3 and 4), return 0 and 0
and leave two entries for proxy 7. -/
theorem available_duplicate_counterexample :
    ((process_msg_from_glib 0 (fun _ => []) (fun _ _ => some 3)
        { userdata := { devices := [] }, proxy := 7 }
        (GUPNP_DISCOVER_CONTEXT_AVAILABLE 0)).bind fun r1 =>
      (process_msg_from_glib 0 (fun _ => []) (fun _ _ => some 4) r1.2.1
        (GUPNP_DISCOVER_CONTEXT_AVAILABLE 0)).map fun r2 =>
          (r1.1, r2.1, r2.2.1.userdata.devices))
      = some (0, 0, [{ proxy := 7, module_index := 4 }, { proxy := 7, module_index := 3 }]) := by
  decide

/-- C10: handling Unavailable for a proxy held by no entry returns 0, leaves the device
list unchanged and issues no effect (no unload request, no proxy release); and handling
Unavailable a second time for the same proxy returns 0, issues no effect and leaves the
registry as the first handling left it. -/
theorem unavailable_absent_noop (PA_SINK_MESSAGE_MAX : Int) (udn : Nat → List Char)
    (module_load : List Char → List Char → Option Nat) (o : pa_gupnp_discover_msg) :
    ((∀ dev ∈ o.userdata.devices, dev.proxy ≠ o.proxy) →
      process_msg_from_glib PA_SINK_MESSAGE_MAX udn module_load o
        (GUPNP_DISCOVER_CONTEXT_UNAVAILABLE PA_SINK_MESSAGE_MAX) = some (0, o, [])) ∧
    (∃ o1 effects,
      process_msg_from_glib PA_SINK_MESSAGE_MAX udn module_load o
        (GUPNP_DISCOVER_CONTEXT_UNAVAILABLE PA_SINK_MESSAGE_MAX) = some (0, o1, effects) ∧
      process_msg_from_glib PA_SINK_MESSAGE_MAX udn module_load o1
        (GUPNP_DISCOVER_CONTEXT_UNAVAILABLE PA_SINK_MESSAGE_MAX) = some (0, o1, [])) := by
  have hne : GUPNP_DISCOVER_CONTEXT_UNAVAILABLE PA_SINK_MESSAGE_MAX
      ≠ GUPNP_DISCOVER_CONTEXT_AVAILABLE PA_SINK_MESSAGE_MAX := by
    unfold GUPNP_DISCOVER_CONTEXT_UNAVAILABLE GUPNP_DISCOVER_CONTEXT_AVAILABLE
    omega
  have habs : ∀ o2 : pa_gupnp_discover_msg, (∀ dev ∈ o2.userdata.devices, dev.proxy ≠ o2.proxy) →
      process_msg_from_glib PA_SINK_MESSAGE_MAX udn module_load o2
        (GUPNP_DISCOVER_CONTEXT_UNAVAILABLE PA_SINK_MESSAGE_MAX) = some (0, o2, []) := by
    intro o2 h
    unfold process_msg_from_glib
    simp only [if_neg hne, if_true, unavailable_loop_absent _ _ h]
  refine ⟨habs o, ?_⟩
  refine ⟨{ o with userdata := { o.userdata with
      devices := (unavailable_loop o.proxy o.userdata.devices).1 } },
    (unavailable_loop o.proxy o.userdata.devices).2, ?_, ?_⟩
  · unfold process_msg_from_glib
    simp only [if_neg hne, if_true]
  · exact habs _ (unavailable_loop_clears _ _)

theorem unavailable_absent_noop_witness :
    process_msg_from_glib 0 (fun _ => []) (fun _ _ => none)
      { userdata := { devices := [{ proxy := 5, module_index := 2 }] }, proxy := 7 }
      (GUPNP_DISCOVER_CONTEXT_UNAVAILABLE 0)
      = some (0, { userdata := { devices := [{ proxy := 5, module_index := 2 }] },
                   proxy := 7 }, []) :=
  (unavailable_absent_noop 0 (fun _ => []) (fun _ _ => none)
    { userdata := { devices := [{ proxy := 5, module_index := 2 }] }, proxy := 7 }).1
    (by decide)

end gupnp_discover

/-! ### Device registry, end to end -/

namespace gupnp_discover

theorem unavailable_loop_eq (proxy : Nat) (devices : List pa_upnp_device) :
    unavailable_loop proxy devices
      = (devices.filter (fun dev => dev.proxy ≠ proxy),
         ((devices.filter (fun dev => dev.proxy = proxy)).map (removal_effects proxy)).flatten) := by
  induction devices with
  | nil => rfl
  | cons dev tmp ih =>
    unfold unavailable_loop
    rw [ih]
    by_cases h : dev.proxy = proxy
    · simp [h, removal_effects]
    · simp [h]

/-- C11: from a registry with no entry for proxy `X`, handling Available(`X`) with a
successful module load adds exactly one entry, holding `X` and the loaded module's index;
handling Unavailable(`X`) afterwards gives back the registry it started from (no entry for
`X`, and no entry at all if it started empty) and issues exactly one unload request, for
that module index. -/
theorem available_then_unavailable (PA_SINK_MESSAGE_MAX : Int) (udn : Nat → List Char)
    (load1 load2 : List Char → List Char → Option Nat) (o : pa_gupnp_discover_msg)
    (X index : Nat)
    (habsent : ∀ dev ∈ o.userdata.devices, dev.proxy ≠ X)
    (hload : load1 DEVICE_MODULE_NAME ("udn=".toList ++ udn X) = some index) :
    ∃ o1 e1 o2 e2,
      device_proxy_available_cb PA_SINK_MESSAGE_MAX udn load1 o X = some (o1, e1) ∧
      o1.userdata.devices = { proxy := X, module_index := index } :: o.userdata.devices ∧
      o1.userdata.devices.filter (fun dev => dev.proxy = X)
        = [{ proxy := X, module_index := index }] ∧
      device_proxy_unavailable_cb PA_SINK_MESSAGE_MAX udn load2 o1 X = some (o2, e2) ∧
      o2.userdata.devices = o.userdata.devices ∧
      (∀ dev ∈ o2.userdata.devices, dev.proxy ≠ X) ∧
      (o.userdata.devices = [] → o2.userdata.devices = []) ∧
      e2 = removal_effects X { proxy := X, module_index := index } ∧
      e2.filter is_unload_request
        = [effect.pa_module_unload_request_by_index index true] := by
  have hne : GUPNP_DISCOVER_CONTEXT_UNAVAILABLE PA_SINK_MESSAGE_MAX
      ≠ GUPNP_DISCOVER_CONTEXT_AVAILABLE PA_SINK_MESSAGE_MAX := by
    unfold GUPNP_DISCOVER_CONTEXT_UNAVAILABLE GUPNP_DISCOVER_CONTEXT_AVAILABLE
    omega
  have hfilter : o.userdata.devices.filter (fun dev => dev.proxy = X) = [] := by
    rw [List.filter_eq_nil_iff]
    intro dev hd
    simpa using habsent dev hd
  have hkeep : o.userdata.devices.filter (fun dev => dev.proxy ≠ X) = o.userdata.devices := by
    rw [List.filter_eq_self]
    intro dev hd
    simpa using habsent dev hd
  refine ⟨{ userdata := { devices := { proxy := X, module_index := index }
              :: o.userdata.devices }, proxy := X },
    [effect.pa_module_load DEVICE_MODULE_NAME ("udn=".toList ++ udn X)],
    { userdata := { devices := o.userdata.devices }, proxy := X },
    removal_effects X { proxy := X, module_index := index }, ?_, rfl, ?_, ?_, rfl, habsent,
    fun h => h, rfl, rfl⟩
  · unfold device_proxy_available_cb process_msg_from_glib
    simp only [if_true, hload, Option.bind]
  · rw [List.filter_cons]
    simp only [decide_True, if_true, hfilter]
  · unfold device_proxy_unavailable_cb process_msg_from_glib
    simp only [if_neg hne, if_true, unavailable_loop_eq, Option.bind]
    rw [List.filter_cons, List.filter_cons]
    simp only [hfilter, hkeep, ne_eq, not_true_eq_false, decide_False, decide_True, if_true,
      Bool.false_eq_true, if_false, List.map_cons, List.map_nil, List.flatten, List.append_nil,
      removal_effects]

theorem available_then_unavailable_witness :
    ∃ o1 e1 o2 e2,
      device_proxy_available_cb 0 (fun _ => []) (fun _ _ => some 4)
        { userdata := { devices := [{ proxy := 5, module_index := 2 }] }, proxy := 0 } 7
        = some (o1, e1) ∧
      o1.userdata.devices
        = { proxy := 7, module_index := 4 } :: [{ proxy := 5, module_index := 2 }] ∧
      o1.userdata.devices.filter (fun dev => dev.proxy = 7)
        = [{ proxy := 7, module_index := 4 }] ∧
      device_proxy_unavailable_cb 0 (fun _ => []) (fun _ _ => none) o1 7 = some (o2, e2) ∧
      o2.userdata.devices = [{ proxy := 5, module_index := 2 }] ∧
      (∀ dev ∈ o2.userdata.devices, dev.proxy ≠ 7) ∧
      (([{ proxy := 5, module_index := 2 }] : List pa_upnp_device) = [] →
        o2.userdata.devices = []) ∧
      e2 = removal_effects 7 { proxy := 7, module_index := 4 } ∧
      e2.filter is_unload_request = [effect.pa_module_unload_request_by_index 4 true] :=
  available_then_unavailable 0 (fun _ => []) (fun _ _ => some 4) (fun _ _ => none)
    { userdata := { devices := [{ proxy := 5, module_index := 2 }] }, proxy := 0 } 7 4
    (by decide) rfl

/-- C17 (as the code has it): for every entry that Unavailable(proxy) matches, the handler
requests the module unload first, then unlinks the entry from the device list, then
releases the proxy reference and last frees the entry; entries are handled one after the
other in list order. So the unload request and the proxy release both come before the
entry is freed, while the unlinking from the list comes before the proxy release. -/
theorem unavailable_effect_order (PA_SINK_MESSAGE_MAX : Int) (udn : Nat → List Char)
    (module_load : List Char → List Char → Option Nat) (o : pa_gupnp_discover_msg) :
    process_msg_from_glib PA_SINK_MESSAGE_MAX udn module_load o
        (GUPNP_DISCOVER_CONTEXT_UNAVAILABLE PA_SINK_MESSAGE_MAX)
      = some (0,
          { o with userdata := { o.userdata with
              devices := o.userdata.devices.filter (fun dev => dev.proxy ≠ o.proxy) } },
          ((o.userdata.devices.filter (fun dev => dev.proxy = o.proxy)).map
            (fun dev =>
              [effect.pa_module_unload_request_by_index dev.module_index true,
               effect.PA_LLIST_REMOVE dev,
               effect.g_object_unref o.proxy,
               effect.pa_xfree dev])).flatten) := by
  have hne : GUPNP_DISCOVER_CONTEXT_UNAVAILABLE PA_SINK_MESSAGE_MAX
      ≠ GUPNP_DISCOVER_CONTEXT_AVAILABLE PA_SINK_MESSAGE_MAX := by
    unfold GUPNP_DISCOVER_CONTEXT_UNAVAILABLE GUPNP_DISCOVER_CONTEXT_AVAILABLE
    omega
  unfold process_msg_from_glib
  simp only [if_neg hne, if_true, unavailable_loop_eq]
  rfl

/-- C17, the claim as written, fails: with the single entry (proxy 7, module 3) in the
registry, Unavailable(7) unlinks the entry from the list (second effect) before it
releases the proxy reference (third effect). -/
theorem unavailable_order_counterexample :
    (process_msg_from_glib 0 (fun _ => []) (fun _ _ => none)
        { userdata := { devices := [{ proxy := 7, module_index := 3 }] }, proxy := 7 }
        (GUPNP_DISCOVER_CONTEXT_UNAVAILABLE 0)).map
      (fun r => (r.2.2,
        decide (r.2.2.indexOf (effect.PA_LLIST_REMOVE { proxy := 7, module_index := 3 })
          < r.2.2.indexOf (effect.g_object_unref 7))))
      = some ([effect.pa_module_unload_request_by_index 3 true,
               effect.PA_LLIST_REMOVE { proxy := 7, module_index := 3 },
               effect.g_object_unref 7,
               effect.pa_xfree { proxy := 7, module_index := 3 }], true) := by
  decide

end gupnp_discover

/-! ### Pad stripping -/

theorem set_append_length (pre : List Char) (x v : Char) (rest : List Char) :
    (pre ++ x :: rest).set pre.length v = pre ++ v :: rest := by
  induction pre with
  | nil => rfl
  | cons p ps ih => simp [List.set, ih]

theorem getD_append_length (pre : List Char) (x d : Char) (rest : List Char) :
    (pre ++ x :: rest).getD pre.length d = x := by
  induction pre with
  | nil => rfl
  | cons p ps ih => simpa [List.getD] using ih

theorem getD_append_length_succ (pre : List Char) (x y d : Char) (rest : List Char) :
    (pre ++ x :: y :: rest).getD (pre.length + 1) d = y := by
  have h := getD_append_length (pre ++ [x]) y d rest
  simpa using h

/-- The shifting loop moves each of the `mid.length` characters after position `i` one
place down and leaves the last of them in place twice. -/
theorem remove_char_shift_spec (mid : List Char) :
    ∀ (pre : List Char) (x : Char) (rest : List Char),
      (List.range' pre.length mid.length).foldl
          (fun s j => s.set j (s.getD (j + 1) NUL)) (pre ++ x :: (mid ++ rest))
        = pre ++ (mid ++ (mid.getLast?.getD x) :: rest) := by
  induction mid with
  | nil => intro pre x rest; rfl
  | cons m mid ih =>
    intro pre x rest
    rw [List.length_cons, List.range'_succ, List.foldl_cons]
    have h1 : (pre ++ x :: (m :: mid ++ rest)).getD (pre.length + 1) NUL = m :=
      getD_append_length_succ pre x m NUL (mid ++ rest)
    rw [h1, set_append_length]
    have h2 : pre ++ m :: (m :: mid ++ rest) = (pre ++ [m]) ++ m :: (mid ++ rest) := by simp
    have h3 : pre.length + 1 = (pre ++ [m]).length := by simp
    rw [h2, h3, ih (pre ++ [m]) m rest]
    cases mid with
    | nil => simp
    | cons m2 mid2 =>
      have hl : (m2 :: mid2).getLast? = some ((m2 :: mid2).getLast (List.cons_ne_nil _ _)) :=
        List.getLast?_eq_getLast _ _
      simp [List.getLast?_cons_cons, hl]

theorem takeWhile_ne_NUL (s junk : List Char) (hs : NUL ∉ s) :
    (s ++ NUL :: junk).takeWhile (fun ch => ch ≠ NUL) = s := by
  induction s with
  | nil => simp [List.takeWhile]
  | cons x xs ih =>
    have hx : x ≠ NUL := fun h => hs (by rw [h]; exact List.mem_cons_self _ _)
    have hxs : NUL ∉ xs := fun h => hs (List.mem_cons_of_mem _ h)
    rw [List.cons_append, List.takeWhile_cons, if_pos (by simpa using hx), ih hxs]

theorem strlen_terminated (s junk : List Char) (hs : NUL ∉ s) :
    strlen (s ++ NUL :: junk) = s.length := by
  unfold strlen
  rw [takeWhile_ne_NUL s junk hs]

theorem c_string_terminated (s junk : List Char) (hs : NUL ∉ s) :
    c_string (s ++ NUL :: junk) = s := by
  unfold c_string
  exact takeWhile_ne_NUL s junk hs

theorem remove_char_loop_spec (rc : Char) (rest : List Char) :
    ∀ (fuel : Nat) (pre junk : List Char) (num : Nat), rest.length < fuel →
      ∃ junk',
        remove_char_loop rc fuel (pre ++ (rest ++ NUL :: junk)) pre.length
            (pre.length + rest.length) num
          = some (pre ++ (rest.filter (fun ch => ch ≠ rc) ++ NUL :: junk'),
                  num + rest.count rc) ∧
        (rest.filter (fun ch => ch ≠ rc)).length + junk'.length = rest.length + junk.length := by
  induction rest with
  | nil =>
    intro fuel pre junk num hf
    cases fuel with
    | zero => omega
    | succ fuel =>
      refine ⟨junk, ?_, rfl⟩
      unfold remove_char_loop
      simp
  | cons x xs ih =>
    intro fuel pre junk num hf
    cases fuel with
    | zero => omega
    | succ fuel =>
      have hlt : pre.length < pre.length + (x :: xs).length := by simp
      have hget : (pre ++ (x :: xs ++ NUL :: junk)).getD pre.length NUL = x :=
        getD_append_length pre x NUL (xs ++ NUL :: junk)
      unfold remove_char_loop
      rw [if_pos hlt, hget]
      by_cases hx : x = rc
      · rw [if_pos hx]
        have hshift : remove_char_shift (pre ++ (x :: xs ++ NUL :: junk)) pre.length
            (pre.length + (x :: xs).length) = pre ++ (xs ++ NUL :: (NUL :: junk)) := by
          unfold remove_char_shift
          have e1 : pre.length + (x :: xs).length - pre.length = (xs ++ [NUL]).length := by
            simp
          have e2 : pre ++ (x :: xs ++ NUL :: junk) = pre ++ x :: ((xs ++ [NUL]) ++ junk) := by
            simp
          rw [e1, e2, remove_char_shift_spec (xs ++ [NUL]) pre x junk]
          simp
        have e3 : pre.length + (x :: xs).length - 1 = pre.length + xs.length := by simp
        rw [hshift, e3]
        obtain ⟨junk', hrun, hlen⟩ := ih fuel pre (NUL :: junk) (num + 1)
          (by simp at hf; omega)
        refine ⟨junk', ?_, ?_⟩
        · rw [hrun]
          simp [hx, List.count_cons]
          omega
        · simp [hx] at hlen ⊢
          omega
      · rw [if_neg hx]
        have e4 : pre ++ (x :: xs ++ NUL :: junk) = (pre ++ [x]) ++ (xs ++ NUL :: junk) := by
          simp
        have e5 : pre.length + 1 = (pre ++ [x]).length := by simp
        have e6 : pre.length + (x :: xs).length = (pre ++ [x]).length + xs.length := by
          simp; omega
        rw [e4, e5, e6]
        obtain ⟨junk', hrun, hlen⟩ := ih fuel (pre ++ [x]) junk num (by simp at hf; omega)
        refine ⟨junk', ?_, ?_⟩
        · rw [hrun]
          have hxc : ¬ (rc = x) := fun h => hx h.symm
          simp [hx, hxc, List.count_cons]
        · simp [hx] at hlen ⊢
          omega

theorem remove_char_from_string_run (s junk : List Char) (rc : Char) (hs : NUL ∉ s) :
    ∃ junk',
      remove_char_from_string (s ++ NUL :: junk) rc
        = some (s.filter (fun ch => ch ≠ rc) ++ NUL :: junk', s.count rc) ∧
      (s.filter (fun ch => ch ≠ rc)).length + junk'.length = s.length + junk.length := by
  obtain ⟨junk', hrun, hlen⟩ :=
    remove_char_loop_spec rc s (s.length + 1) [] junk 0 (Nat.lt_succ_self _)
  refine ⟨junk', ?_, hlen⟩
  unfold remove_char_from_string
  rw [strlen_terminated s junk hs]
  simpa using hrun

theorem filter_trailing_pad (body : List Char) (k : Nat) (rc : Char) (hb : rc ∉ body) :
    (body ++ List.replicate k rc).filter (fun ch => ch ≠ rc) = body := by
  rw [List.filter_append]
  have h1 : body.filter (fun ch => ch ≠ rc) = body := by
    rw [List.filter_eq_self]
    intro a ha
    have : a ≠ rc := fun h => hb (h ▸ ha)
    simpa using this
  have h2 : (List.replicate k rc).filter (fun ch => ch ≠ rc) = [] := by
    rw [List.filter_eq_nil_iff]
    intro a ha
    have := List.eq_of_mem_replicate ha
    simp [this]
  rw [h1, h2, List.append_nil]

/-- C20: on every NUL-terminated buffer and every non-NUL character `rc`,
`remove_char_from_string` returns; the string it leaves is the input with every
occurrence of `rc` deleted and the other characters in their order, and the value
returned is the number of occurrences deleted.  For a text whose `=` form only a
trailing run this is the text with the pad characters stripped. -/
theorem remove_char_from_string_deletes (s junk : List Char) (rc : Char)
    (hs : NUL ∉ s) (_hrc : rc ≠ NUL) (_hint : (s.length : Int) ≤ INT_MAX) :
    ∃ buf,
      remove_char_from_string (s ++ NUL :: junk) rc = some (buf, s.count rc) ∧
      c_string buf = s.filter (fun ch => ch ≠ rc) ∧
      buf.length = (s ++ NUL :: junk).length ∧
      (∀ (body : List Char) (k : Nat), s = body ++ List.replicate k '=' → '=' ∉ body →
        rc = '=' → c_string buf = body) := by
  obtain ⟨junk', hrun, hlen⟩ := remove_char_from_string_run s junk rc hs
  have hfil : NUL ∉ s.filter (fun ch => ch ≠ rc) := fun h => hs (List.mem_filter.mp h).1
  have hcs : c_string (s.filter (fun ch => ch ≠ rc) ++ NUL :: junk')
      = s.filter (fun ch => ch ≠ rc) := c_string_terminated _ _ hfil
  refine ⟨_, hrun, hcs, ?_, ?_⟩
  · simp only [List.length_append, List.length_cons]
    omega
  · intro body k hbody hpad hrc
    subst hrc
    rw [hcs, hbody]
    exact filter_trailing_pad body k '=' hpad

theorem remove_char_from_string_deletes_witness :
    ∃ buf,
      remove_char_from_string ("QUJD==".toList ++ NUL :: ['x']) '='
        = some (buf, ("QUJD==".toList).count '=') ∧
      c_string buf = ("QUJD==".toList).filter (fun ch => ch ≠ '=') ∧
      buf.length = ("QUJD==".toList ++ NUL :: ['x']).length ∧
      (∀ (body : List Char) (k : Nat), "QUJD==".toList = body ++ List.replicate k '=' →
        '=' ∉ body → '=' = '=' → c_string buf = body) :=
  remove_char_from_string_deletes ("QUJD==".toList) ['x'] '=' (by decide) (by decide)
    (by decide)

/-! ### Handshake sequencing -/

theorem split_at_first_NUL (text : List Char) :
    ∃ s junk, text ++ [NUL] = s ++ NUL :: junk ∧ NUL ∉ s := by
  induction text with
  | nil => exact ⟨[], [], rfl, by simp⟩
  | cons x xs ih =>
    by_cases hx : x = NUL
    · exact ⟨[], xs ++ [NUL], by simp [hx], by simp⟩
    · obtain ⟨s, junk, he, hs⟩ := ih
      refine ⟨x :: s, junk, by simp [he], ?_⟩
      intro h
      rcases List.mem_cons.mp h with h1 | h1
      · exact hx h1.symm
      · exact hs h1

theorem remove_char_from_string_total (text : List Char) (rc : Char) :
    ∃ r, remove_char_from_string (text ++ [NUL]) rc = some r := by
  obtain ⟨s, junk, he, hs⟩ := split_at_first_NUL text
  obtain ⟨junk', hrun, _⟩ := remove_char_from_string_run s junk rc hs
  exact ⟨_, by rw [he]; exact hrun⟩

theorem rtsp_cb_connect_eq {K : Type} (lib : raop_library K) (challenge : List Nat)
    (headers : pa_headerlist) (c : pa_raop_client K) :
    ∃ sac sdp,
      rtsp_cb lib challenge pa_rtsp_state.STATE_CONNECT headers c = some
        { c with rtsp := (pa_rtsp_announce
            (pa_rtsp_add_header
              (pa_rtsp_set_url c.rtsp
                ("rtsp://".toList ++ pa_rtsp_localip c.rtsp ++ "/".toList ++ c.sid))
              ("Apple-Challenge".toList) sac) sdp) } := by
  obtain ⟨key, hkey⟩ := remove_char_from_string_total
    (lib.pa_base64_encode (rsa_encrypt lib (List.ofFn c.aes_key))) '='
  obtain ⟨iv, hiv⟩ := remove_char_from_string_total
    (lib.pa_base64_encode (List.ofFn c.aes_iv)) '='
  obtain ⟨sac, hsac⟩ := remove_char_from_string_total (lib.pa_base64_encode challenge) '='
  refine ⟨c_string sac.1, ?_⟩
  unfold rtsp_cb
  simp only [hkey, hiv, hsac, Option.bind]
  exact ⟨_, rfl⟩

theorem rtsp_cb_announce_eq {K : Type} (lib : raop_library K) (challenge : List Nat)
    (headers : pa_headerlist) (c : pa_raop_client K) :
    rtsp_cb lib challenge pa_rtsp_state.STATE_ANNOUNCE headers c = some
      { c with rtsp := (pa_rtsp_setup
          (pa_rtsp_remove_header c.rtsp ("Apple-Challenge".toList))) } := rfl

/-- C18: whatever state the session callback is handed, it returns, and the only request
it issues is the one for the immediate successor: announce on Connect, setup on
Announce, record on Setup when the status header is present (nothing when it is absent);
on Record, Teardown, SetParameter and Flush it issues no request and leaves the client as
it was. -/
theorem rtsp_cb_issues_successor_only {K : Type} (lib : raop_library K)
    (challenge : List Nat) (state : pa_rtsp_state) (headers : pa_headerlist)
    (c : pa_raop_client K) :
    ∃ c', rtsp_cb lib challenge state headers c = some c' ∧
      (state = pa_rtsp_state.STATE_CONNECT →
        ∃ sdp, c'.rtsp.requests = c.rtsp.requests ++ [rtsp_request.ANNOUNCE sdp]) ∧
      (state = pa_rtsp_state.STATE_ANNOUNCE →
        c'.rtsp.requests = c.rtsp.requests ++ [rtsp_request.SETUP]) ∧
      (state = pa_rtsp_state.STATE_SETUP →
        c'.rtsp.requests = c.rtsp.requests ++
          (if (pa_headerlist_gets headers ("Audio-Jack-Status".toList)).isSome
            then [rtsp_request.RECORD] else [])) ∧
      (state = pa_rtsp_state.STATE_RECORD ∨ state = pa_rtsp_state.STATE_TEARDOWN ∨
        state = pa_rtsp_state.STATE_SET_PARAMETER ∨ state = pa_rtsp_state.STATE_FLUSH →
        c' = c) := by
  cases state with
  | STATE_CONNECT =>
    obtain ⟨sac, sdp, h⟩ := rtsp_cb_connect_eq lib challenge headers c
    refine ⟨_, h, fun _ => ⟨sdp, rfl⟩, ?_, ?_, ?_⟩
    · intro h; cases h
    · intro h; cases h
    · intro h; rcases h with h | h | h | h <;> cases h
  | STATE_ANNOUNCE =>
    refine ⟨_, rtsp_cb_announce_eq lib challenge headers c, ?_, fun _ => rfl, ?_, ?_⟩
    · intro h; cases h
    · intro h; cases h
    · intro h; rcases h with h | h | h | h <;> cases h
  | STATE_SETUP =>
    cases hg : pa_headerlist_gets headers ("Audio-Jack-Status".toList) with
    | none =>
      refine ⟨c, ?_, ?_, ?_, ?_, fun _ => rfl⟩
      · unfold rtsp_cb
        simp only [hg]
      · intro h; cases h
      · intro h; cases h
      · intro _
        simp
    | some aj =>
      refine ⟨_, rtsp_cb_setup_present lib challenge headers c aj hg, ?_, ?_, ?_, ?_⟩
      · intro h; cases h
      · intro h; cases h
      · intro _
        rfl
      · intro h; rcases h with h | h | h | h <;> cases h
  | STATE_RECORD =>
    refine ⟨c, rfl, ?_, ?_, ?_, fun _ => rfl⟩ <;> (intro h; cases h)
  | STATE_TEARDOWN =>
    refine ⟨c, rfl, ?_, ?_, ?_, fun _ => rfl⟩ <;> (intro h; cases h)
  | STATE_SET_PARAMETER =>
    refine ⟨c, rfl, ?_, ?_, ?_, fun _ => rfl⟩ <;> (intro h; cases h)
  | STATE_FLUSH =>
    refine ⟨c, rfl, ?_, ?_, ?_, fun _ => rfl⟩ <;> (intro h; cases h)

theorem rtsp_cb_issues_successor_only_witness :
    ∃ c', rtsp_cb example_library (List.range 16) pa_rtsp_state.STATE_TEARDOWN []
        example_connected = some c' ∧
      (pa_rtsp_state.STATE_TEARDOWN = pa_rtsp_state.STATE_CONNECT →
        ∃ sdp, c'.rtsp.requests
          = example_connected.rtsp.requests ++ [rtsp_request.ANNOUNCE sdp]) ∧
      (pa_rtsp_state.STATE_TEARDOWN = pa_rtsp_state.STATE_ANNOUNCE →
        c'.rtsp.requests = example_connected.rtsp.requests ++ [rtsp_request.SETUP]) ∧
      (pa_rtsp_state.STATE_TEARDOWN = pa_rtsp_state.STATE_SETUP →
        c'.rtsp.requests = example_connected.rtsp.requests ++
          (if (pa_headerlist_gets [] ("Audio-Jack-Status".toList)).isSome
            then [rtsp_request.RECORD] else [])) ∧
      (pa_rtsp_state.STATE_TEARDOWN = pa_rtsp_state.STATE_RECORD ∨
        pa_rtsp_state.STATE_TEARDOWN = pa_rtsp_state.STATE_TEARDOWN ∨
        pa_rtsp_state.STATE_TEARDOWN = pa_rtsp_state.STATE_SET_PARAMETER ∨
        pa_rtsp_state.STATE_TEARDOWN = pa_rtsp_state.STATE_FLUSH →
        c' = example_connected) :=
  rtsp_cb_issues_successor_only example_library (List.range 16)
    pa_rtsp_state.STATE_TEARDOWN [] example_connected

theorem gets_filter_ne (headers : pa_headerlist) (key drop : List Char) (h : key ≠ drop) :
    pa_headerlist_gets (headers.filter (fun kv => kv.1 ≠ drop)) key
      = pa_headerlist_gets headers key := by
  unfold pa_headerlist_gets
  congr 1
  induction headers with
  | nil => rfl
  | cons kv rest ih =>
    by_cases hk : kv.1 = drop
    · have hne : ¬ kv.1 = key := fun e => h (e.symm.trans hk)
      rw [List.filter_cons, if_neg (by simpa using hk),
        List.find?_cons_of_neg _ (by simpa using hne)]
      exact ih
    · rw [List.filter_cons, if_pos (by simpa using hk)]
      by_cases hkey : kv.1 = key
      · rw [List.find?_cons_of_pos _ (by simpa using hkey),
          List.find?_cons_of_pos _ (by simpa using hkey)]
      · rw [List.find?_cons_of_neg _ (by simpa using hkey),
          List.find?_cons_of_neg _ (by simpa using hkey)]
        exact ih

theorem gets_filter_self (headers : pa_headerlist) (drop : List Char) :
    pa_headerlist_gets (headers.filter (fun kv => kv.1 ≠ drop)) drop = none := by
  unfold pa_headerlist_gets
  rw [Option.map_eq_none', List.find?_eq_none]
  intro kv hkv
  have := (List.mem_filter.mp hkv).2
  simpa using this

theorem gets_append_singleton (headers : pa_headerlist) (key value : List Char)
    (h : pa_headerlist_gets headers key = none) :
    pa_headerlist_gets (headers ++ [(key, value)]) key = some value := by
  unfold pa_headerlist_gets at h ⊢
  rw [Option.map_eq_none'] at h
  rw [List.find?_append, h]
  simp

/-- C19: the Connect step adds the `Apple-Challenge` header before announcing: the
announce request it issues goes out with a header mapping that binds `Apple-Challenge`.
The Announce acknowledgement removes the header before requesting setup: the setup
request it issues goes out with a header mapping that has no `Apple-Challenge` entry.
After Connect followed by Announce the session's header mapping has no `Apple-Challenge`
entry, and every other header (`Client-Instance` among them) is bound as it was before
Connect, in the same order. -/
theorem challenge_header_single_use {K : Type} (lib : raop_library K)
    (challenge : List Nat) (headers1 headers2 : pa_headerlist) (c : pa_raop_client K) :
    ∃ c1 c2 sac sdp H1 H2,
      rtsp_cb lib challenge pa_rtsp_state.STATE_CONNECT headers1 c = some c1 ∧
      rtsp_cb lib challenge pa_rtsp_state.STATE_ANNOUNCE headers2 c1 = some c2 ∧
      c1.rtsp.requests = c.rtsp.requests ++ [rtsp_request.ANNOUNCE sdp] ∧
      c1.rtsp.request_headers = c.rtsp.request_headers ++ [H1] ∧
      H1 = c.rtsp.headers.filter (fun kv => kv.1 ≠ "Apple-Challenge".toList)
            ++ [("Apple-Challenge".toList, sac)] ∧
      ("Apple-Challenge".toList, sac) ∈ H1 ∧
      pa_headerlist_gets H1 ("Apple-Challenge".toList) = some sac ∧
      c1.rtsp.headers = H1 ∧
      c2.rtsp.requests = c.rtsp.requests ++ [rtsp_request.ANNOUNCE sdp, rtsp_request.SETUP] ∧
      c2.rtsp.request_headers = c.rtsp.request_headers ++ [H1, H2] ∧
      H2 = c.rtsp.headers.filter (fun kv => kv.1 ≠ "Apple-Challenge".toList) ∧
      (∀ kv ∈ H2, kv.1 ≠ "Apple-Challenge".toList) ∧
      pa_headerlist_gets H2 ("Apple-Challenge".toList) = none ∧
      pa_headerlist_gets c2.rtsp.headers ("Apple-Challenge".toList) = none ∧
      (∀ kv ∈ c2.rtsp.headers, kv.1 ≠ "Apple-Challenge".toList) ∧
      (∀ key, key ≠ "Apple-Challenge".toList →
        pa_headerlist_gets c2.rtsp.headers key = pa_headerlist_gets c.rtsp.headers key) ∧
      pa_headerlist_gets c2.rtsp.headers ("Client-Instance".toList)
        = pa_headerlist_gets c.rtsp.headers ("Client-Instance".toList) ∧
      c2.rtsp.headers
        = c.rtsp.headers.filter (fun kv => kv.1 ≠ "Apple-Challenge".toList) := by
  obtain ⟨sac, sdp, h1⟩ := rtsp_cb_connect_eq lib challenge headers1 c
  have hh : ((c.rtsp.headers.filter (fun kv => kv.1 ≠ "Apple-Challenge".toList)
        ++ [("Apple-Challenge".toList, sac)]).filter
          (fun kv => kv.1 ≠ "Apple-Challenge".toList))
      = c.rtsp.headers.filter (fun kv => kv.1 ≠ "Apple-Challenge".toList) := by
    rw [List.filter_append, List.filter_filter]
    simp
  have hnone : ∀ kv ∈ c.rtsp.headers.filter (fun kv => kv.1 ≠ "Apple-Challenge".toList),
      kv.1 ≠ "Apple-Challenge".toList := by
    intro kv hkv
    have := (List.mem_filter.mp hkv).2
    simpa using this
  refine ⟨_, _, sac, sdp, _, _, h1, rtsp_cb_announce_eq lib challenge headers2 _,
    rfl, rfl, rfl, ?_, ?_, rfl, ?_, ?_, hh, ?_, ?_, ?_, ?_, ?_, ?_, hh⟩
  · exact List.mem_append_right _ (List.mem_singleton.mpr rfl)
  · exact gets_append_singleton _ _ _ (gets_filter_self _ _)
  · show (c.rtsp.requests ++ [rtsp_request.ANNOUNCE sdp]) ++ [rtsp_request.SETUP] = _
    rw [List.append_assoc]
    rfl
  · show (c.rtsp.request_headers ++ [_]) ++ [_] = _
    rw [List.append_assoc]
    rfl
  · rw [hh]
    exact hnone
  · rw [hh]
    exact gets_filter_self _ _
  · show pa_headerlist_gets (List.filter _ _) _ = none
    exact gets_filter_self _ _
  · intro kv hkv
    have hkv2 : kv ∈ List.filter (fun kv => kv.1 ≠ "Apple-Challenge".toList)
        (c.rtsp.headers.filter (fun kv => kv.1 ≠ "Apple-Challenge".toList)
          ++ [("Apple-Challenge".toList, sac)]) := hkv
    rw [hh] at hkv2
    exact hnone kv hkv2
  · intro key hkey
    show pa_headerlist_gets (List.filter _ (List.filter _ c.rtsp.headers ++ _)) key = _
    rw [hh]
    exact gets_filter_ne _ _ _ hkey
  · show pa_headerlist_gets (List.filter _ (List.filter _ c.rtsp.headers ++ _)) _ = _
    rw [hh]
    exact gets_filter_ne _ _ _ (by decide)

/-! ### Scheduler adapter -/

namespace glib_utils

theorem pairing_append (e1 e2 : List mq_event) :
    ∀ b : Bool, pairing b (e1 ++ e2) = (pairing b e1).bind (fun b' => pairing b' e2) := by
  induction e1 with
  | nil => intro b; rfl
  | cons e es ih =>
    intro b
    cases e <;> cases b <;> simp [pairing, ih]

theorem iteration_pairing (PA_MESSAGE_SHUTDOWN : Int) (process_msg : pa_message → Int)
    (s : thread_mq_source) (input : iteration_input)
    (hobj : s.object = none)
    (hq : ∀ m ∈ s.q.pending, well_formed PA_MESSAGE_SHUTDOWN m)
    (hb : ∀ m ∈ input.sent_before_prepare, well_formed PA_MESSAGE_SHUTDOWN m)
    (hw : ∀ m ∈ input.sent_while_polling, well_formed PA_MESSAGE_SHUTDOWN m) :
    pairing false (main_context_iteration PA_MESSAGE_SHUTDOWN process_msg s input).2
        = some false ∧
      (main_context_iteration PA_MESSAGE_SHUTDOWN process_msg s input).1.object = none ∧
      (∀ m ∈ (main_context_iteration PA_MESSAGE_SHUTDOWN process_msg s input).1.q.pending,
        well_formed PA_MESSAGE_SHUTDOWN m) := by
  have hall : ∀ m ∈ s.q.pending ++ input.sent_before_prepare,
      well_formed PA_MESSAGE_SHUTDOWN m := by
    intro m hm
    rcases List.mem_append.mp hm with h | h
    · exact hq m h
    · exact hb m h
  unfold main_context_iteration thread_mq_in_source_prepare pa_asyncmsgq_get
  cases hp : s.q.pending ++ input.sent_before_prepare with
  | nil =>
    simp only [Bool.false_eq_true, if_false, thread_mq_in_source_check,
      thread_mq_in_source_dispatch, hobj]
    have hw' : ∀ m ∈ ([] : List pa_message) ++ input.sent_while_polling,
        well_formed PA_MESSAGE_SHUTDOWN m := by
      intro m hm
      exact hw m (by simpa using hm)
    split
    · exact ⟨rfl, rfl, hw'⟩
    · exact ⟨rfl, rfl, hw'⟩
  | cons m rest =>
    have hm : well_formed PA_MESSAGE_SHUTDOWN m := hall m (by rw [hp]; exact List.mem_cons_self _ _)
    have hrest : ∀ x ∈ rest, well_formed PA_MESSAGE_SHUTDOWN x := by
      intro x hx
      exact hall x (by rw [hp]; exact List.mem_cons_of_mem _ hx)
    simp only
    by_cases hs : m.object = none ∧ m.code = PA_MESSAGE_SHUTDOWN
    · simp only [hs, and_self, if_true, thread_mq_in_source_dispatch]
      exact ⟨rfl, trivial, hrest⟩
    · simp only [hs, if_false, if_true, thread_mq_in_source_dispatch]
      cases ho : m.object with
      | none =>
        rcases hm with h | h
        · exact absurd ho h
        · exact absurd ⟨ho, h⟩ hs
      | some obj =>
        exact ⟨rfl, rfl, hrest⟩

theorem run_pairing (PA_MESSAGE_SHUTDOWN : Int) (process_msg : pa_message → Int)
    (inputs : List iteration_input) :
    ∀ s : thread_mq_source, s.object = none →
      (∀ m ∈ s.q.pending, well_formed PA_MESSAGE_SHUTDOWN m) →
      (∀ input ∈ inputs,
        (∀ m ∈ input.sent_before_prepare, well_formed PA_MESSAGE_SHUTDOWN m) ∧
        (∀ m ∈ input.sent_while_polling, well_formed PA_MESSAGE_SHUTDOWN m)) →
      pairing false (main_loop_run PA_MESSAGE_SHUTDOWN process_msg s inputs).2
        = some false := by
  induction inputs with
  | nil => intro s _ _ _; rfl
  | cons input inputs ih =>
    intro s hobj hq hin
    unfold main_loop_run
    by_cases hquit : s.quit_requested = true
    · rw [if_pos hquit]; rfl
    · rw [if_neg hquit]
      have h0 := hin input (List.mem_cons_self _ _)
      obtain ⟨h1, h2, h3⟩ :=
        iteration_pairing PA_MESSAGE_SHUTDOWN process_msg s input hobj hq h0.1 h0.2
      have h4 := ih _ h2 h3 (fun i hi => hin i (List.mem_cons_of_mem _ hi))
      show pairing false (_ ++ _) = some false
      rw [pairing_append, h1]
      exact h4

/-- C12 (as the code has it): when every queued message either has a handler or is the
shutdown sentinel, then for every run of the foreign loop over the adapter, whatever is
sent and whatever the poll reports, each message obtained is acknowledged by exactly one
`pa_asyncmsgq_done` before the next message is requested, and none is outstanding when
the run ends. -/
theorem adapter_pairs_get_with_done (PA_MESSAGE_SHUTDOWN : Int)
    (process_msg : pa_message → Int) (inq : pa_asyncmsgq) (inputs : List iteration_input)
    (hq : ∀ m ∈ inq.pending, well_formed PA_MESSAGE_SHUTDOWN m)
    (hin : ∀ input ∈ inputs,
      (∀ m ∈ input.sent_before_prepare, well_formed PA_MESSAGE_SHUTDOWN m) ∧
      (∀ m ∈ input.sent_while_polling, well_formed PA_MESSAGE_SHUTDOWN m)) :
    pairing false
        (main_loop_run PA_MESSAGE_SHUTDOWN process_msg (pa_gsource_for_thread_mq inq) inputs).2
      = some false :=
  run_pairing PA_MESSAGE_SHUTDOWN process_msg inputs (pa_gsource_for_thread_mq inq) rfl hq hin

theorem adapter_pairs_get_with_done_witness :
    pairing false
        (main_loop_run (-1) (fun m => m.code)
          (pa_gsource_for_thread_mq
            { pending := [{ object := some 1, code := 5, data := 0, offset := 0, chunk := 0 }] })
          [{ sent_before_prepare := [], sent_while_polling := [], revents := 0 },
           { sent_before_prepare :=
               [{ object := none, code := -1, data := 0, offset := 0, chunk := 0 }],
             sent_while_polling := [], revents := 1 }]).2
      = some false :=
  adapter_pairs_get_with_done (-1) (fun m => m.code) _ _
    (by unfold well_formed; decide) (by unfold well_formed; decide)

/-- C12, the claim as written, fails: with a queued message that has no handler and is
not the shutdown sentinel (code 7, the sentinel code being -1) followed by an ordinary
message, the adapter obtains the first, never acknowledges it, and obtains the second. -/
theorem adapter_pairing_counterexample :
    example_unacknowledged_run.2
      = [mq_event.pa_asyncmsgq_get
           { object := none, code := 7, data := 0, offset := 0, chunk := 0 },
         mq_event.pa_asyncmsgq_get
           { object := some 1, code := 7, data := 0, offset := 0, chunk := 0 },
         mq_event.pa_asyncmsgq_dispatch
           { object := some 1, code := 7, data := 0, offset := 0, chunk := 0 },
         mq_event.pa_asyncmsgq_done 0] ∧
    pairing false example_unacknowledged_run.2 = none := by
  decide

/-- C13: when the message obtained is the shutdown sentinel, prepare acknowledges the
queue once with 0, requests termination of the foreign loop and reports ready; the
dispatch step that follows invokes no handler and gives no further acknowledgement, and
the run of the loop ends there without requesting another message. -/
theorem shutdown_sentinel_handling (PA_MESSAGE_SHUTDOWN : Int)
    (process_msg : pa_message → Int) (s : thread_mq_source) (m : pa_message)
    (rest : List pa_message) (timeout : Int) (input : iteration_input)
    (inputs : List iteration_input)
    (hhead : s.q.pending = m :: rest) (hobj : m.object = none)
    (hcode : m.code = PA_MESSAGE_SHUTDOWN) (hrun : s.quit_requested = false) :
    ∃ s1,
      thread_mq_in_source_prepare PA_MESSAGE_SHUTDOWN s timeout
        = (s1, timeout, true,
            [mq_event.pa_asyncmsgq_get m, mq_event.pa_asyncmsgq_done 0,
             mq_event.g_main_loop_quit]) ∧
      s1.quit_requested = true ∧ s1.object = none ∧ s1.q.pending = rest ∧
      thread_mq_in_source_dispatch process_msg s1 = (s1, true, []) ∧
      (main_context_iteration PA_MESSAGE_SHUTDOWN process_msg s input).2
        = [mq_event.pa_asyncmsgq_get m, mq_event.pa_asyncmsgq_done 0,
           mq_event.g_main_loop_quit] ∧
      ((main_context_iteration PA_MESSAGE_SHUTDOWN process_msg s input).2.filter
        is_handler_call) = [] ∧
      (main_loop_run PA_MESSAGE_SHUTDOWN process_msg s (input :: inputs)).2
        = [mq_event.pa_asyncmsgq_get m, mq_event.pa_asyncmsgq_done 0,
           mq_event.g_main_loop_quit] := by
  have hiter : main_context_iteration PA_MESSAGE_SHUTDOWN process_msg s input
      = ({ s with q := { pending := rest ++ input.sent_before_prepare },
                  object := m.object, code := m.code, data := m.data, offset := m.offset,
                  chunk := m.chunk, quit_requested := true },
         [mq_event.pa_asyncmsgq_get m, mq_event.pa_asyncmsgq_done 0,
          mq_event.g_main_loop_quit]) := by
    unfold main_context_iteration thread_mq_in_source_prepare pa_asyncmsgq_get
    simp only [hhead, List.cons_append, hobj, hcode, and_self, if_true,
      thread_mq_in_source_dispatch, List.append_nil]
  refine ⟨{ s with q := { pending := rest }, object := m.object, code := m.code,
                   data := m.data, offset := m.offset, chunk := m.chunk,
                   quit_requested := true }, ?_, rfl, hobj, rfl, ?_, ?_, ?_, ?_⟩
  · unfold thread_mq_in_source_prepare pa_asyncmsgq_get
    simp only [hhead, hobj, hcode, and_self, if_true]
  · unfold thread_mq_in_source_dispatch
    simp only [hobj]
  · rw [hiter]
  · rw [hiter]
    rfl
  · unfold main_loop_run
    rw [if_neg (by simp [hrun]), hiter]
    cases inputs with
    | nil => simp [main_loop_run]
    | cons i is => simp [main_loop_run]

theorem shutdown_sentinel_handling_witness :
    ∃ s1,
      thread_mq_in_source_prepare (-1)
          (pa_gsource_for_thread_mq
            { pending := [{ object := none, code := -1, data := 0, offset := 0, chunk := 0 },
                          { object := some 1, code := 5, data := 0, offset := 0, chunk := 0 }] })
          0
        = (s1, 0, true,
            [mq_event.pa_asyncmsgq_get
               { object := none, code := -1, data := 0, offset := 0, chunk := 0 },
             mq_event.pa_asyncmsgq_done 0, mq_event.g_main_loop_quit]) ∧
      s1.quit_requested = true ∧ s1.object = none ∧
      s1.q.pending = [{ object := some 1, code := 5, data := 0, offset := 0, chunk := 0 }] ∧
      thread_mq_in_source_dispatch (fun m => m.code) s1 = (s1, true, []) ∧
      (main_context_iteration (-1) (fun m => m.code)
          (pa_gsource_for_thread_mq
            { pending := [{ object := none, code := -1, data := 0, offset := 0, chunk := 0 },
                          { object := some 1, code := 5, data := 0, offset := 0, chunk := 0 }] })
          { sent_before_prepare := [], sent_while_polling := [], revents := 1 }).2
        = [mq_event.pa_asyncmsgq_get
             { object := none, code := -1, data := 0, offset := 0, chunk := 0 },
           mq_event.pa_asyncmsgq_done 0, mq_event.g_main_loop_quit] ∧
      ((main_context_iteration (-1) (fun m => m.code)
          (pa_gsource_for_thread_mq
            { pending := [{ object := none, code := -1, data := 0, offset := 0, chunk := 0 },
                          { object := some 1, code := 5, data := 0, offset := 0, chunk := 0 }] })
          { sent_before_prepare := [], sent_while_polling := [], revents := 1 }).2.filter
        is_handler_call) = [] ∧
      (main_loop_run (-1) (fun m => m.code)
          (pa_gsource_for_thread_mq
            { pending := [{ object := none, code := -1, data := 0, offset := 0, chunk := 0 },
                          { object := some 1, code := 5, data := 0, offset := 0, chunk := 0 }] })
          ({ sent_before_prepare := [], sent_while_polling := [], revents := 1 } ::
            [{ sent_before_prepare := [], sent_while_polling := [], revents := 1 }])).2
        = [mq_event.pa_asyncmsgq_get
             { object := none, code := -1, data := 0, offset := 0, chunk := 0 },
           mq_event.pa_asyncmsgq_done 0, mq_event.g_main_loop_quit] :=
  shutdown_sentinel_handling (-1) (fun m => m.code) _ _ _ 0 _ _ rfl rfl rfl rfl

end glib_utils

/-! ### Property store -/

namespace authkey_prop

theorem get_append_new (c : pa_core) (name : List Char) (a : authkey_data)
    (h : pa_property_get c name = none) :
    pa_property_get (c ++ [(name, a)]) name = some a := by
  unfold pa_property_get at h ⊢
  rw [Option.map_eq_none'] at h
  rw [List.find?_append, h]
  simp

theorem get_store_through (c : pa_core) (name : List Char) (a a' : authkey_data)
    (h : pa_property_get c name = some a) :
    pa_property_get (store_through c name a') name = some a' := by
  unfold pa_property_get store_through at *
  induction c with
  | nil => simp at h
  | cons kv rest ih =>
    by_cases hk : kv.1 = name
    · rw [List.map_cons, if_pos hk, List.find?_cons_of_pos _ (by simpa using hk)]
      rfl
    · rw [List.find?_cons_of_neg _ (by simpa using hk)] at h
      rw [List.map_cons, if_neg hk, List.find?_cons_of_neg _ (by simpa using hk)]
      exact ih h

theorem get_remove (c : pa_core) (name : List Char) :
    pa_property_get (pa_property_remove c name) name = none := by
  unfold pa_property_get pa_property_remove
  rw [Option.map_eq_none', List.find?_eq_none]
  intro kv hkv
  have := (List.mem_filter.mp hkv).2
  simpa using this

theorem put_absent (c : pa_core) (name : List Char) (d : List Nat) (len : Nat)
    (h : pa_property_get c name = none) :
    pa_authkey_prop_put c name d len
      = (0, c ++ [(name, { ref := 1, length := len, bytes := d.take len })]) := by
  unfold pa_authkey_prop_put pa_property_set
  simp only [h]

theorem put_present (c : pa_core) (name : List Char) (d : List Nat) (len : Nat)
    (a : authkey_data) (h : pa_property_get c name = some a) :
    pa_authkey_prop_put c name d len = (-1, c) := by
  unfold pa_authkey_prop_put
  simp only [h]

/-- C14 (as the code has it): for a length `len > 0`, after `pa_authkey_prop_put` succeeds
on a name that was absent, `pa_authkey_prop_get` with the same length returns 0 and yields
exactly the bytes put; every further put on that name returns -1 and leaves the store
(bytes and reference count included) as it was, so the get keeps yielding the same bytes;
and a get with a length `len > 0` on an absent name returns -1 and leaves the caller's
buffer alone. -/
theorem authkey_put_get_roundtrip (c : pa_core) (name : List Char) (d buf : List Nat)
    (len : Nat) (habsent : pa_property_get c name = none) (hd : d.length = len)
    (hlen : 0 < len) (_hbuf : len ≤ buf.length) :
    (pa_authkey_prop_put c name d len).1 = 0 ∧
    pa_authkey_prop_get (pa_authkey_prop_put c name d len).2 name buf len
      = some (0, d ++ buf.drop len) ∧
    (d ++ buf.drop len).take len = d ∧
    pa_property_get (pa_authkey_prop_put c name d len).2 name
      = some { ref := 1, length := len, bytes := d } ∧
    (∀ (d2 : List Nat) (len2 : Nat),
      pa_authkey_prop_put (pa_authkey_prop_put c name d len).2 name d2 len2
        = (-1, (pa_authkey_prop_put c name d len).2) ∧
      pa_authkey_prop_get
          (pa_authkey_prop_put (pa_authkey_prop_put c name d len).2 name d2 len2).2 name buf len
        = some (0, d ++ buf.drop len)) ∧
    pa_authkey_prop_get c name buf len = some (-1, buf) := by
  have htake : d.take len = d := by rw [← hd]; exact List.take_length d
  have hput := put_absent c name d len habsent
  have hget1 : pa_property_get (pa_authkey_prop_put c name d len).2 name
      = some { ref := 1, length := len, bytes := d } := by
    rw [hput, ← htake]
    simpa [htake] using get_append_new c name { ref := 1, length := len, bytes := d } habsent
  have hread : pa_authkey_prop_get (pa_authkey_prop_put c name d len).2 name buf len
      = some (0, d ++ buf.drop len) := by
    unfold pa_authkey_prop_get
    simp only [hget1, hlen, not_true_eq_false, if_false, htake, gt_iff_lt]
  refine ⟨by rw [hput], hread, ?_, hget1, ?_, ?_⟩
  · rw [List.take_left' hd]
  · intro d2 len2
    have hp2 := put_present _ name d2 len2 _ hget1
    refine ⟨hp2, ?_⟩
    rw [hp2]
    exact hread
  · unfold pa_authkey_prop_get
    simp only [habsent, hlen, not_true_eq_false, if_false, gt_iff_lt]

theorem authkey_put_get_roundtrip_witness :
    (pa_authkey_prop_put [] ['k'] [1, 2, 3] 3).1 = 0 ∧
    pa_authkey_prop_get (pa_authkey_prop_put [] ['k'] [1, 2, 3] 3).2 ['k'] [0, 0, 0] 3
      = some (0, [1, 2, 3] ++ ([0, 0, 0] : List Nat).drop 3) ∧
    ([1, 2, 3] ++ ([0, 0, 0] : List Nat).drop 3).take 3 = [1, 2, 3] ∧
    pa_property_get (pa_authkey_prop_put [] ['k'] [1, 2, 3] 3).2 ['k']
      = some { ref := 1, length := 3, bytes := [1, 2, 3] } ∧
    (∀ (d2 : List Nat) (len2 : Nat),
      pa_authkey_prop_put (pa_authkey_prop_put [] ['k'] [1, 2, 3] 3).2 ['k'] d2 len2
        = (-1, (pa_authkey_prop_put [] ['k'] [1, 2, 3] 3).2) ∧
      pa_authkey_prop_get
          (pa_authkey_prop_put (pa_authkey_prop_put [] ['k'] [1, 2, 3] 3).2 ['k'] d2 len2).2
          ['k'] [0, 0, 0] 3
        = some (0, [1, 2, 3] ++ ([0, 0, 0] : List Nat).drop 3)) ∧
    pa_authkey_prop_get [] ['k'] [0, 0, 0] 3 = some (-1, [0, 0, 0]) :=
  authkey_put_get_roundtrip [] ['k'] [1, 2, 3] [0, 0, 0] 3 rfl rfl (by decide) (by decide)

/-- C14, the claim as written, fails for a length of zero: on the empty store a put of
zero bytes under the name "k" succeeds (returns 0, stores an entry of length 0 with
reference count 1), yet `pa_authkey_prop_get` with the same length 0 does not return 0:
its assertion `len > 0` fails and the call aborts; likewise a get with length 0 on an
absent name aborts instead of returning -1. -/
theorem authkey_zero_length_counterexample :
    pa_property_get ([] : pa_core) ['k'] = none ∧
    pa_authkey_prop_put [] ['k'] [] 0 = (0, [(['k'], { ref := 1, length := 0, bytes := [] })]) ∧
    pa_authkey_prop_get (pa_authkey_prop_put [] ['k'] [] 0).2 ['k'] [5] 0 = none ∧
    pa_authkey_prop_get [] ['k'] [5] 0 = none := by
  decide

/-- Every stored entry has a reference count of at least 1. -/
theorem counts_positive_step (c c' : pa_core) (call : store_call)
    (hinv : ∀ kv ∈ c, 1 ≤ kv.2.ref) (h : apply_call c call = some c') :
    ∀ kv ∈ c', 1 ≤ kv.2.ref := by
  cases call with
  | put name data len =>
    simp only [apply_call, Option.some.injEq] at h
    subst h
    cases hg : pa_property_get c name with
    | some a =>
      rw [put_present c name data len a hg]
      exact hinv
    | none =>
      rw [put_absent c name data len hg]
      intro kv hkv
      rcases List.mem_append.mp hkv with h1 | h1
      · exact hinv kv h1
      · rw [List.mem_singleton.mp h1]
  | ref name =>
    simp only [apply_call, pa_authkey_prop_ref] at h
    cases hg : pa_property_get c name with
    | none => rw [hg] at h; cases h
    | some a =>
      rw [hg] at h
      simp only at h
      split at h
      · cases h
      · split at h
        · cases h
        · rename_i h1 _
          simp only [Option.some.injEq] at h
          subst h
          intro kv hkv
          unfold store_through at hkv
          obtain ⟨kv0, hkv0, he⟩ := List.mem_map.mp hkv
          by_cases hn : kv0.1 = name
          · rw [if_pos hn] at he
            rw [← he]
            simp only
            omega
          · rw [if_neg hn] at he
            rw [← he]
            exact hinv kv0 hkv0
  | unref name =>
    simp only [apply_call, pa_authkey_prop_unref] at h
    cases hg : pa_property_get c name with
    | none => rw [hg] at h; cases h
    | some a =>
      rw [hg] at h
      simp only at h
      split at h
      · cases h
      · rename_i h1
        have hstore : ∀ kv ∈ store_through c name { a with ref := a.ref - 1 },
            kv.1 = name ∨ 1 ≤ kv.2.ref := by
          intro kv hkv
          unfold store_through at hkv
          obtain ⟨kv0, hkv0, he⟩ := List.mem_map.mp hkv
          by_cases hn : kv0.1 = name
          · rw [if_pos hn] at he
            left
            rw [← he]
            exact hn
          · rw [if_neg hn] at he
            right
            rw [← he]
            exact hinv kv0 hkv0
        split at h
        · simp only [Option.some.injEq] at h
          subst h
          intro kv hkv
          unfold pa_property_remove at hkv
          obtain ⟨hm, hne⟩ := List.mem_filter.mp hkv
          rcases hstore kv hm with h2 | h2
          · simp [h2] at hne
          · exact h2
        · rename_i h0
          simp only [Option.some.injEq] at h
          subst h
          intro kv hkv
          unfold store_through at hkv
          obtain ⟨kv0, hkv0, he⟩ := List.mem_map.mp hkv
          by_cases hn : kv0.1 = name
          · rw [if_pos hn] at he
            rw [← he]
            simp only at h0 ⊢
            omega
          · rw [if_neg hn] at he
            rw [← he]
            exact hinv kv0 hkv0

theorem counts_positive_run (calls : List store_call) :
    ∀ c c' : pa_core, (∀ kv ∈ c, 1 ≤ kv.2.ref) → apply_calls c calls = some c' →
      ∀ kv ∈ c', 1 ≤ kv.2.ref := by
  induction calls with
  | nil =>
    intro c c' hinv h
    simp only [apply_calls, Option.some.injEq] at h
    subst h
    exact hinv
  | cons call calls ih =>
    intro c c' hinv h
    unfold apply_calls at h
    cases h1 : apply_call c call with
    | none => rw [h1] at h; cases h
    | some c1 =>
      rw [h1] at h
      exact ih c1 c' (counts_positive_step c c1 call hinv h1) h

theorem get_mem (c : pa_core) (name : List Char) (a : authkey_data)
    (h : pa_property_get c name = some a) : (name, a) ∈ c := by
  unfold pa_property_get at h
  cases hf : c.find? (fun kv => kv.1 = name) with
  | none => rw [hf] at h; cases h
  | some kv =>
    rw [hf] at h
    simp only [Option.map_some', Option.some.injEq] at h
    have hm := List.mem_of_find?_eq_some hf
    have hp := List.find?_some hf
    have hk : kv.1 = name := by simpa using hp
    have : kv = (name, a) := by
      cases kv
      simp only at hk h
      rw [hk, h]
    rw [← this]
    exact hm

theorem apply_calls_append (l1 l2 : List store_call) :
    ∀ c : pa_core, apply_calls c (l1 ++ l2) = (apply_calls c l1).bind (fun c' => apply_calls c' l2) := by
  induction l1 with
  | nil => intro c; rfl
  | cons call l1 ih =>
    intro c
    simp only [List.cons_append, apply_calls]
    cases apply_call c call with
    | none => rfl
    | some c1 => exact ih c1

theorem ref_adds_one (c : pa_core) (name : List Char) (a : authkey_data)
    (hg : pa_property_get c name = some a) (h1 : 1 ≤ a.ref) (hmax : a.ref + 1 ≤ INT_MAX) :
    ∃ c', pa_authkey_prop_ref c name = some c' ∧
      pa_property_get c' name = some { a with ref := a.ref + 1 } := by
  refine ⟨store_through c name { a with ref := a.ref + 1 }, ?_, get_store_through c name a _ hg⟩
  unfold pa_authkey_prop_ref
  simp only [hg]
  rw [if_neg (by omega), if_neg (by omega)]

theorem unref_subtracts_one (c : pa_core) (name : List Char) (a : authkey_data)
    (hg : pa_property_get c name = some a) (h1 : 1 ≤ a.ref) :
    ∃ c', pa_authkey_prop_unref c name = some c' ∧
      (a.ref = 1 → pa_property_get c' name = none) ∧
      (a.ref ≠ 1 → pa_property_get c' name = some { a with ref := a.ref - 1 }) := by
  unfold pa_authkey_prop_unref
  simp only [hg]
  rw [if_neg (by omega)]
  by_cases h0 : a.ref - 1 = 0
  · rw [if_pos h0]
    exact ⟨_, rfl, fun _ => get_remove _ _, fun hne => absurd (by omega) hne⟩
  · rw [if_neg h0]
    exact ⟨_, rfl, fun h => absurd (by omega) h0, fun _ => get_store_through c name a _ hg⟩

theorem refs_run (name : List Char) (n : Nat) :
    ∀ (c : pa_core) (a : authkey_data), pa_property_get c name = some a → 1 ≤ a.ref →
      a.ref + (n : Int) ≤ INT_MAX →
      ∃ c', apply_calls c (List.replicate n (store_call.ref name)) = some c' ∧
        pa_property_get c' name = some { a with ref := a.ref + (n : Int) } := by
  induction n with
  | zero =>
    intro c a hg _ _
    exact ⟨c, rfl, by simpa using hg⟩
  | succ n ih =>
    intro c a hg h1 hmax
    obtain ⟨c1, hr, hg1⟩ := ref_adds_one c name a hg h1 (by push_cast at hmax; omega)
    obtain ⟨c2, hr2, hg2⟩ := ih c1 { a with ref := a.ref + 1 } hg1 (by simp only; omega)
      (by push_cast at hmax; simp only; omega)
    refine ⟨c2, ?_, ?_⟩
    · rw [List.replicate_succ]
      simp only [apply_calls, apply_call, hr, Option.bind]
      exact hr2
    · rw [hg2]
      simp only [Nat.cast_add, Nat.cast_one, Option.some.injEq, authkey_data.mk.injEq,
        and_true]
      omega

theorem unrefs_run (name : List Char) (k : Nat) :
    ∀ (c : pa_core) (a : authkey_data), pa_property_get c name = some a →
      (k : Int) < a.ref →
      ∃ c', apply_calls c (List.replicate k (store_call.unref name)) = some c' ∧
        pa_property_get c' name = some { a with ref := a.ref - (k : Int) } := by
  induction k with
  | zero =>
    intro c a hg _
    exact ⟨c, rfl, by simpa using hg⟩
  | succ k ih =>
    intro c a hg hk
    obtain ⟨c1, hr, _, hg1⟩ := unref_subtracts_one c name a hg (by push_cast at hk; omega)
    have hg1' := hg1 (by push_cast at hk; omega)
    obtain ⟨c2, hr2, hg2⟩ := ih c1 { a with ref := a.ref - 1 } hg1'
      (by push_cast at hk; simp only; omega)
    refine ⟨c2, ?_, ?_⟩
    · rw [List.replicate_succ]
      simp only [apply_calls, apply_call, hr, Option.bind]
      exact hr2
    · rw [hg2]
      simp only [Nat.cast_add, Nat.cast_one, Option.some.injEq, authkey_data.mk.injEq,
        and_true]
      omega

/-- C15: in every state reachable from the empty store through put, ref and unref each
stored entry has a reference count of at least 1; put creates the entry with count 1,
ref adds one, unref subtracts one and removes the entry exactly when the count reaches
zero; so after a put and `n` refs the entry is still there after any `k <= n` unrefs
(with count `n + 1 - k`) and is gone after `n + 1` unrefs. -/
theorem authkey_reference_counting :
    (∀ (calls : List store_call) (c : pa_core), apply_calls [] calls = some c →
      ∀ (name : List Char) (a : authkey_data), pa_property_get c name = some a →
        1 ≤ a.ref) ∧
    (∀ (c : pa_core) (name : List Char) (d : List Nat) (len : Nat),
      pa_property_get c name = none →
      ∃ a, pa_property_get (pa_authkey_prop_put c name d len).2 name = some a ∧ a.ref = 1) ∧
    (∀ (c : pa_core) (name : List Char) (a : authkey_data),
      pa_property_get c name = some a → 1 ≤ a.ref → a.ref + 1 ≤ INT_MAX →
      ∃ c', pa_authkey_prop_ref c name = some c' ∧
        pa_property_get c' name = some { a with ref := a.ref + 1 }) ∧
    (∀ (c : pa_core) (name : List Char) (a : authkey_data),
      pa_property_get c name = some a → 1 ≤ a.ref →
      ∃ c', pa_authkey_prop_unref c name = some c' ∧
        (a.ref = 1 → pa_property_get c' name = none) ∧
        (a.ref ≠ 1 → pa_property_get c' name = some { a with ref := a.ref - 1 })) ∧
    (∀ (c : pa_core) (name : List Char) (d : List Nat) (len n : Nat),
      pa_property_get c name = none → (n : Int) + 1 ≤ INT_MAX →
      (∀ k, k ≤ n →
        ∃ c' a, apply_calls c (store_call.put name d len ::
            (List.replicate n (store_call.ref name)
              ++ List.replicate k (store_call.unref name))) = some c' ∧
          pa_property_get c' name = some a ∧ a.ref = (n : Int) + 1 - (k : Int)) ∧
      (∃ c', apply_calls c (store_call.put name d len ::
            (List.replicate n (store_call.ref name)
              ++ List.replicate (n + 1) (store_call.unref name))) = some c' ∧
          pa_property_get c' name = none)) := by
  refine ⟨?_, ?_, ref_adds_one, unref_subtracts_one, ?_⟩
  · intro calls c h name a hg
    have := counts_positive_run calls [] c (fun kv hkv => by cases hkv) h (name, a)
      (get_mem c name a hg)
    exact this
  · intro c name d len habs
    rw [put_absent c name d len habs]
    exact ⟨_, get_append_new c name _ habs, rfl⟩
  · intro c name d len n habs hmax
    have hput : apply_call c (store_call.put name d len)
        = some (c ++ [(name, { ref := 1, length := len, bytes := d.take len })]) := by
      simp only [apply_call, put_absent c name d len habs]
    have hg0 := get_append_new c name { ref := 1, length := len, bytes := d.take len } habs
    obtain ⟨c1, hr1, hg1⟩ := refs_run name n _ _ hg0 (le_refl (1 : Int))
      (by simp only; omega)
    have hcons : ∀ calls : List store_call,
        apply_calls c (store_call.put name d len :: calls)
          = apply_calls (c ++ [(name, { ref := 1, length := len, bytes := d.take len })])
              calls := by
      intro calls
      rw [apply_calls, hput]
      rfl
    constructor
    · intro k hk
      obtain ⟨c2, hr2, hg2⟩ := unrefs_run name k c1 _ hg1 (by simp only; omega)
      refine ⟨c2, _, ?_, hg2, ?_⟩
      · rw [hcons, apply_calls_append, hr1]
        exact hr2
      · simp only
        omega
    · obtain ⟨c2, hr2, hg2⟩ := unrefs_run name n c1 _ hg1 (by simp only; omega)
      obtain ⟨c3, hr3, hg3, _⟩ := unref_subtracts_one c2 name _ hg2 (by simp only; omega)
      refine ⟨c3, ?_, hg3 (by simp only; omega)⟩
      rw [List.replicate_succ', hcons, apply_calls_append, hr1]
      show apply_calls c1 _ = some c3
      rw [apply_calls_append, hr2]
      show apply_calls c2 [store_call.unref name] = some c3
      rw [apply_calls]
      show (pa_authkey_prop_unref c2 name).bind _ = some c3
      rw [hr3]
      rfl

theorem authkey_reference_counting_witness :
    (∀ k, k ≤ 2 →
      ∃ c' a, apply_calls [] (store_call.put ['k'] [1, 2, 3] 3 ::
          (List.replicate 2 (store_call.ref ['k'])
            ++ List.replicate k (store_call.unref ['k']))) = some c' ∧
        pa_property_get c' ['k'] = some a ∧ a.ref = ((2 : Nat) : Int) + 1 - (k : Int)) ∧
    (∃ c', apply_calls [] (store_call.put ['k'] [1, 2, 3] 3 ::
          (List.replicate 2 (store_call.ref ['k'])
            ++ List.replicate (2 + 1) (store_call.unref ['k']))) = some c' ∧
        pa_property_get c' ['k'] = none) :=
  authkey_reference_counting.2.2.2.2 [] ['k'] [1, 2, 3] 3 2 rfl (by decide)

end authkey_prop

/-! ### Control endpoint -/

namespace gupnp_sink

/-- C16: when the sink is not in a linked state, each of the four relay operations
(set volume, get volume, set mute, get mute) returns at once: no message is sent on the
queue, no remote action is invoked, and the sink (volume and mute state included) is
left as it was. -/
theorem unlinked_sink_callbacks_noop (lib : sink_library) (uninit : Nat) (s : pa_sink)
    (h : lib.PA_SINK_IS_LINKED (pa_sink_get_state s) = false) :
    sink_set_volume_cb lib uninit s = some (s, []) ∧
    sink_get_volume_cb lib uninit s = some (s, []) ∧
    sink_set_mute_cb lib uninit s = some (s, []) ∧
    sink_get_mute_cb lib uninit s = some (s, []) := by
  refine ⟨?_, ?_, ?_, ?_⟩
  · unfold sink_set_volume_cb
    rw [if_pos (by simp [h])]
  · unfold sink_get_volume_cb
    rw [if_pos (by simp [h])]
  · unfold sink_set_mute_cb
    rw [if_pos (by simp [h])]
  · unfold sink_get_mute_cb
    rw [if_pos (by simp [h])]

theorem unlinked_sink_callbacks_noop_witness :
    sink_set_volume_cb example_sink_library 9
        { state := 4, real_volume := { channels := 2, values := [100, 100] }, muted := true }
      = some ({ state := 4, real_volume := { channels := 2, values := [100, 100] },
                muted := true }, []) ∧
    sink_get_volume_cb example_sink_library 9
        { state := 4, real_volume := { channels := 2, values := [100, 100] }, muted := true }
      = some ({ state := 4, real_volume := { channels := 2, values := [100, 100] },
                muted := true }, []) ∧
    sink_set_mute_cb example_sink_library 9
        { state := 4, real_volume := { channels := 2, values := [100, 100] }, muted := true }
      = some ({ state := 4, real_volume := { channels := 2, values := [100, 100] },
                muted := true }, []) ∧
    sink_get_mute_cb example_sink_library 9
        { state := 4, real_volume := { channels := 2, values := [100, 100] }, muted := true }
      = some ({ state := 4, real_volume := { channels := 2, values := [100, 100] },
                muted := true }, []) :=
  unlinked_sink_callbacks_noop example_sink_library 9
    { state := 4, real_volume := { channels := 2, values := [100, 100] }, muted := true }
    (by decide)

end gupnp_sink

/-! ### Remote mute relay and volume wrap-around -/

namespace gupnp_sink

/-- C21: the handler of the get-mute request (`GUPNP_SINK_GET_MUTED`) invokes the same
remote action name as the handler of the set-mute request (`GUPNP_SINK_SET_MUTED`),
namely `SetMute`: the setter with the input argument `DesiredMute`, the getter with the
output argument `CurrentMute`. -/
theorem get_mute_invokes_set_mute_action (lib : sink_library) (uninit m1 m2 : Nat) :
    ∃ m2',
      process_msg_to_glib lib uninit GUPNP_SINK_SET_MUTED (payload.uint m1)
        = some (0, payload.uint m1,
            [sink_effect.gupnp_service_proxy_send_action ("SetMute".toList)
              [("DesiredMute".toList, m1)] []]) ∧
      process_msg_to_glib lib uninit GUPNP_SINK_GET_MUTED (payload.uint m2)
        = some (0, payload.uint m2',
            [sink_effect.gupnp_service_proxy_send_action ("SetMute".toList) []
              ["CurrentMute".toList]]) ∧
      (process_msg_to_glib lib uninit GUPNP_SINK_SET_MUTED (payload.uint m1)).map
          (fun r => action_names r.2.2) = some ["SetMute".toList] ∧
      (process_msg_to_glib lib uninit GUPNP_SINK_GET_MUTED (payload.uint m2)).map
          (fun r => action_names r.2.2) = some ["SetMute".toList] := by
  have hs : process_msg_to_glib lib uninit GUPNP_SINK_SET_MUTED (payload.uint m1)
      = some (0, payload.uint m1,
          [sink_effect.gupnp_service_proxy_send_action ("SetMute".toList)
            [("DesiredMute".toList, m1)] []]) := by
    unfold process_msg_to_glib
    rw [if_neg (by decide), if_neg (by decide), if_pos rfl]
  have hg : process_msg_to_glib lib uninit GUPNP_SINK_GET_MUTED (payload.uint m2)
      = some (0, payload.uint
            ((lib.gupnp_service_proxy_send_action ("SetMute".toList) []
              ["CurrentMute".toList]).getD m2),
          [sink_effect.gupnp_service_proxy_send_action ("SetMute".toList) []
            ["CurrentMute".toList]]) := by
    unfold process_msg_to_glib
    rw [if_neg (by decide), if_neg (by decide), if_neg (by decide), if_pos rfl]
  refine ⟨_, hs, hg, ?_, ?_⟩
  · rw [hs]; rfl
  · rw [hg]; rfl

theorem volume_from_percent_wraps (v : Nat) (hv : 65536 ≤ v) :
    UINT_MODULUS ≤ v * 65536 ∧
      volume_from_percent v = (v * 65536 % UINT_MODULUS) / 100 ∧
      volume_from_percent v < v * 65536 / 100 := by
  have hmod : v * 65536 % 4294967296 < 4294967296 := Nat.mod_lt _ (by decide)
  have hsplit : 4294967296 * (v * 65536 / 4294967296) + v * 65536 % 4294967296
      = v * 65536 := Nat.div_add_mod _ _
  have hk : 1 ≤ v * 65536 / 4294967296 := by
    rw [Nat.le_div_iff_mul_le (by decide)]
    omega
  have hle : v * 65536 % 4294967296 + 4294967296 ≤ v * 65536 := by
    have h1 : 4294967296 * 1 ≤ 4294967296 * (v * 65536 / 4294967296) :=
      Nat.mul_le_mul_left _ hk
    omega
  refine ⟨by unfold UINT_MODULUS; omega, rfl, ?_⟩
  unfold volume_from_percent UINT_MODULUS
  generalize v * 65536 % 4294967296 = r at hmod hle
  generalize v * 65536 = a at hle
  omega

theorem last_change_cb_volume (PA_SINK_MESSAGE_MAX : Int) (parsed : last_change) (q : outq)
    (v : Nat) (hs : parsed.success = true) (hv : parsed.volume = some v)
    (hmax : v ≠ G_MAXUINT) (hq : q.disposed = false) :
    last_change_cb PA_SINK_MESSAGE_MAX parsed q = some
      { q with pending := q.pending ++
          ({ code := GUPNP_SINK_VOLUME_CHANGED PA_SINK_MESSAGE_MAX,
             data := payload.uint (volume_from_percent v) } ::
           (if parsed.muted.getD (-1) ≠ -1 then
              [{ code := GUPNP_SINK_MUTE_CHANGED PA_SINK_MESSAGE_MAX,
                 data := payload.uint
                   ((parsed.muted.getD (-1)) % (UINT_MODULUS : Int)).toNat }]
            else [])) } := by
  unfold last_change_cb send_from_glib pa_asyncmsgq_send
  simp only [hs, hv, Option.getD_some, not_true_eq_false, if_false, ne_eq, hmax,
    not_false_eq_true, if_true, hq, Bool.false_eq_true, Option.bind]
  by_cases hm : parsed.muted.getD (-1) = -1
  · simp only [hm, not_true_eq_false, if_false, List.append_nil]
  · simp only [hm, not_false_eq_true, if_true, List.append_assoc, List.singleton_append]

/-- C22: with 32-bit unsigned arithmetic `volume_from_percent v` equals the exact value
`floor(v * 65536 / 100)` if and only if `v < 65536`; from 65536 on the product wraps
modulo `2^32` and the result falls below the exact value (`volume_from_percent 65536` is
0), so the function is not monotonic over the unsigned domain; and `last_change_cb` hands
every volume the device reports, other than `G_MAXUINT`, to `volume_from_percent` without
a range check and sends the result on. -/
theorem volume_from_percent_wraparound :
    (∀ v : Nat, volume_from_percent v = v * 65536 / 100 ↔ v < 65536) ∧
    (∀ v : Nat, 65536 ≤ v →
      UINT_MODULUS ≤ v * 65536 ∧
      volume_from_percent v = (v * 65536 % UINT_MODULUS) / 100 ∧
      volume_from_percent v < v * 65536 / 100) ∧
    volume_from_percent 65536 = 0 ∧
    ((65535 : Nat) ≤ 65536 ∧ 65536 < UINT_MODULUS ∧
      volume_from_percent 65536 < volume_from_percent 65535) ∧
    (¬ ∀ a b : Nat, a ≤ b → b < UINT_MODULUS →
      volume_from_percent a ≤ volume_from_percent b) ∧
    (∀ (PA_SINK_MESSAGE_MAX : Int) (parsed : last_change) (q : outq) (v : Nat),
      parsed.success = true → parsed.volume = some v → v ≠ G_MAXUINT →
      q.disposed = false →
      last_change_cb PA_SINK_MESSAGE_MAX parsed q = some
        { q with pending := q.pending ++
            ({ code := GUPNP_SINK_VOLUME_CHANGED PA_SINK_MESSAGE_MAX,
               data := payload.uint (volume_from_percent v) } ::
             (if parsed.muted.getD (-1) ≠ -1 then
                [{ code := GUPNP_SINK_MUTE_CHANGED PA_SINK_MESSAGE_MAX,
                   data := payload.uint
                     ((parsed.muted.getD (-1)) % (UINT_MODULUS : Int)).toNat }]
              else [])) }) := by
  refine ⟨?_, volume_from_percent_wraps, by decide, by decide, ?_, last_change_cb_volume⟩
  · intro v
    constructor
    · intro h
      by_contra hge
      have := (volume_from_percent_wraps v (by omega)).2.2
      omega
    · intro h
      exact volume_from_percent_exact v h
  · intro hmono
    have := hmono 65535 65536 (by decide) (by decide)
    revert this
    decide

theorem volume_from_percent_wraparound_witness :
    last_change_cb 100 { success := true, volume := some 65536, muted := none }
        { disposed := false, pending := [] }
      = some
        { ({ disposed := false, pending := [] } : outq) with
          pending := ([] : List outq_message) ++
            ({ code := GUPNP_SINK_VOLUME_CHANGED 100,
               data := payload.uint (volume_from_percent 65536) } ::
             (if ({ success := true, volume := some 65536, muted := none } :
                   last_change).muted.getD (-1) ≠ -1 then
                [{ code := GUPNP_SINK_MUTE_CHANGED 100,
                   data := payload.uint
                     ((({ success := true, volume := some 65536, muted := none } :
                       last_change).muted.getD (-1)) % (UINT_MODULUS : Int)).toNat }]
              else [])) } :=
  volume_from_percent_wraparound.2.2.2.2.2 100
    { success := true, volume := some 65536, muted := none }
    { disposed := false, pending := [] } 65536 rfl rfl (by decide) rfl

end gupnp_sink

end PulseAudio
